import Mathlib

/-!
Verification development for the glaciers EVM log/trace batch decoder.

Shallow embedding of the core components (codec utilities, ABI catalog
builder, matcher, decoder orchestrator, per-row kernels, configger) as
executable Lean definitions, translated from the Rust sources under
crates/glaciers/src, together with theorems settling the specification
claims. Dataframes are modelled as lists of records or named columns;
machine bytes are Nat values below 256; fallible code returns Option or
an explicit error component.
-/

namespace Glaciers

/-- A byte string is a list of byte values. -/
abbrev Bytes := List Nat

/-- Lowercase hex character of a value below 16 (models Rust hex formatting). -/
def hexCharLower (n : Nat) : Char :=
  if n < 10 then Char.ofNat (48 + n) else Char.ofNat (87 + n)

/-- Two lowercase hex characters of one byte, as in Rust format "02x". -/
def byteHexLower (b : Nat) : List Char :=
  [hexCharLower (b / 16), hexCharLower (b % 16)]

/-- Lowercase hex encoding of a byte string (models polars hex_encode and
the Rust iterator map with format "02x"). -/
def encodeHexLower (bs : Bytes) : String :=
  String.mk (bs.flatMap byteHexLower)

/-- Value of one hex digit character, accepting both letter cases
(models the hex decoder used by polars hex_decode). -/
def hexDigitVal (c : Char) : Option Nat :=
  if 48 ≤ c.toNat ∧ c.toNat ≤ 57 then some (c.toNat - 48)
  else if 97 ≤ c.toNat ∧ c.toNat ≤ 102 then some (c.toNat - 87)
  else if 65 ≤ c.toNat ∧ c.toNat ≤ 70 then some (c.toNat - 55)
  else none

/-- Strict decoding of a hex character list into bytes: fails on a stray
character or an odd length. -/
def decodeHexChars : List Char → Option Bytes
  | [] => some []
  | [_] => none
  | c1 :: c2 :: rest =>
      match hexDigitVal c1, hexDigitVal c2, decodeHexChars rest with
      | some h, some l, some tail => some ((16 * h + l) :: tail)
      | _, _, _ => none

/-- Strict hex decoding of a string (models polars hex_decode with
strict set to true; returns none where polars raises). -/
def hexDecodeStrict (s : String) : Option Bytes :=
  decodeHexChars s.data

/-- Models the polars expression str.strip_prefix with literal 0x:
removes the exact prefix 0x when present, otherwise leaves the string. -/
def stripHex0x (s : String) : String :=
  match s.data with
  | '0' :: 'x' :: rest => String.mk rest
  | _ => s

/-- Configured datatype of a schema column (configger::DataType). -/
inductive GlDataType where
  | binary
  | hexString
deriving DecidableEq, Repr

/-- A dataframe column: a name together with either binary cells or
string cells; cells are nullable. -/
inductive Col where
  | bin : String → List (Option Bytes) → Col
  | str : String → List (Option String) → Col
deriving DecidableEq, Repr

/-- Name of a column. -/
def Col.name : Col → String
  | .bin nm _ => nm
  | .str nm _ => nm

/-- A table is a list of named columns. -/
abbrev Table := List Col

/-- First column of a table with the given name. -/
def getCol (tbl : Table) (nm : String) : Option Col :=
  tbl.find? (fun c => c.name = nm)

/-- One cell of the hex-to-binary conversion: polars propagates null,
strips the exact 0x prefix and hex-decodes strictly. -/
def hexToBinaryCell : Option String → Option (Option Bytes)
  | none => some none
  | some s => (hexDecodeStrict (stripHex0x s)).map some

/-- Replacement of the column named al by a freshly computed binary
column, as a with_columns expression does. -/
def replaceCol (al : String) (newCells : List (Option Bytes)) (c : Col) : Col :=
  if c.name = al then Col.bin al newCells else c

/-- Cellwise application of hexToBinaryCell with strict error
propagation: any failing cell fails the whole column. -/
def mapCellsHexDecode : List (Option String) → Option (List (Option Bytes))
  | [] => some []
  | oc :: rest =>
      match hexToBinaryCell oc, mapCellsHexDecode rest with
      | some d, some ds => some (d :: ds)
      | _, _ => none

/-- Applies the strip-prefix plus strict hex-decode expression to the
column with the given alias; fails (as polars does) when the column is
missing, has binary type, or a cell fails strict decoding. -/
def applyHexDecodeCol (tbl : Table) (al : String) : Option Table :=
  match getCol tbl al with
  | some (Col.str _ cells) =>
      match mapCellsHexDecode cells with
      | some newCells => some (tbl.map (replaceCol al newCells))
      | none => none
  | _ => none

/-- Translation of utils::hex_string_columns_to_binary: for every schema
entry whose configured datatype is HexString, replace the aliased column
by its strict hex-decoded binary form; other columns untouched. -/
def hex_string_columns_to_binary (schema : List (GlDataType × String)) (tbl : Table) :
    Option Table :=
  schema.foldlM
    (fun t e => if e.1 = GlDataType.hexString then applyHexDecodeCol t e.2 else some t)
    tbl

/-- One cell of the binary-to-hex conversion: hex_encode then concat_str
with the literal 0x and ignore_nulls set to true, so a null byte cell
becomes the bare string 0x. -/
def binaryToHexCell : Option Bytes → Option String
  | none => some "0x"
  | some b => some ("0x" ++ encodeHexLower b)

/-- Per-column action of utils::binary_columns_to_hex_string. -/
def binColToHex : Col → Col
  | .bin nm cells => .str nm (cells.map binaryToHexCell)
  | c => c

/-- Translation of utils::binary_columns_to_hex_string: every binary
column becomes a string column of 0x-prefixed lowercase hex; all other
columns are untouched. -/
def binary_columns_to_hex_string (tbl : Table) : Table :=
  tbl.map binColToHex

/-- The round trip of the claim: hex-to-binary followed by binary-to-hex. -/
def hexRoundTrip (schema : List (GlDataType × String)) (tbl : Table) : Option Table :=
  (hex_string_columns_to_binary schema tbl).map binary_columns_to_hex_string

/-- Validity predicate written from the claim wording: a leading 0x or 0X
prefix in any letter case followed by valid hex digits. -/
def claimValidHexString (s : String) : Prop :=
  match s.data with
  | c0 :: c1 :: rest => c0 = '0' ∧ (c1 = 'x' ∨ c1 = 'X') ∧ (decodeHexChars rest).isSome
  | _ => False

instance : DecidablePred claimValidHexString := fun s => by
  unfold claimValidHexString
  match s.data with
  | c0 :: c1 :: rest => exact inferInstanceAs (Decidable (_ ∧ _))
  | [] => exact inferInstanceAs (Decidable False)
  | [c] => exact inferInstanceAs (Decidable False)

/-- Lowercase hex digit characters: 0 to 9 and a to f. -/
def isLowerHexDigit (c : Char) : Prop :=
  (48 ≤ c.toNat ∧ c.toNat ≤ 57) ∨ (97 ≤ c.toNat ∧ c.toNat ≤ 102)

instance : DecidablePred isLowerHexDigit := fun c => by
  unfold isLowerHexDigit; infer_instance

/-- A cell whose value is a lowercase-0x-prefixed lowercase hex string of
even digit count. -/
def lowerValidCell (oc : Option String) : Prop :=
  ∃ s rest, oc = some s ∧ s.data = '0' :: 'x' :: rest ∧
    (∀ c ∈ rest, isLowerHexDigit c) ∧ (decodeHexChars rest).isSome

/-- Aliases of the schema entries configured as hex strings. -/
def hexAliases (schema : List (GlDataType × String)) : List String :=
  (schema.filter (fun e => e.1 = GlDataType.hexString)).map (fun e => e.2)

lemma hexDigitVal_lt_16 {c : Char} {n : Nat} (h : hexDigitVal c = some n) : n < 16 := by
  unfold hexDigitVal at h
  split at h
  next hc => simp only [Option.some.injEq] at h; omega
  next =>
    split at h
    next hc => simp only [Option.some.injEq] at h; omega
    next =>
      split at h
      next hc => simp only [Option.some.injEq] at h; omega
      next => cases h

lemma hexCharLower_hexDigitVal {c : Char} {n : Nat}
    (hv : hexDigitVal c = some n) (hl : isLowerHexDigit c) : hexCharLower n = c := by
  unfold hexDigitVal at hv
  unfold hexCharLower
  rcases hl with hd | hd
  · rw [if_pos (by omega)] at hv
    simp only [Option.some.injEq] at hv
    rw [if_pos (by omega)]
    have : 48 + n = c.toNat := by omega
    rw [this]
    exact Char.ofNat_toNat c
  · have h1 : ¬ (48 ≤ c.toNat ∧ c.toNat ≤ 57) := by omega
    rw [if_neg h1, if_pos (by omega)] at hv
    simp only [Option.some.injEq] at hv
    rw [if_neg (by omega)]
    have : 87 + n = c.toNat := by omega
    rw [this]
    exact Char.ofNat_toNat c

lemma byteHexLower_decode {c1 c2 : Char} {h l : Nat}
    (h1 : hexDigitVal c1 = some h) (h2 : hexDigitVal c2 = some l)
    (hl1 : isLowerHexDigit c1) (hl2 : isLowerHexDigit c2) :
    byteHexLower (16 * h + l) = [c1, c2] := by
  have hh := hexDigitVal_lt_16 h1
  have hh2 := hexDigitVal_lt_16 h2
  unfold byteHexLower
  have e1 : (16 * h + l) / 16 = h := by omega
  have e2 : (16 * h + l) % 16 = l := by omega
  rw [e1, e2, hexCharLower_hexDigitVal h1 hl1, hexCharLower_hexDigitVal h2 hl2]

lemma decode_encode_chars : ∀ (cs : List Char) (bs : Bytes),
    (∀ c ∈ cs, isLowerHexDigit c) → decodeHexChars cs = some bs →
    bs.flatMap byteHexLower = cs
  | [], bs, _, hd => by
      simp only [decodeHexChars, Option.some.injEq] at hd
      subst hd; rfl
  | [c], bs, _, hd => by
      simp only [decodeHexChars] at hd
      exact Option.noConfusion hd
  | c1 :: c2 :: rest, bs, hall, hd => by
      simp only [decodeHexChars] at hd
      split at hd
      next h l tail h1 h2 htail =>
        simp only [Option.some.injEq] at hd
        subst hd
        have ih := decode_encode_chars rest tail
          (fun c hc => hall c (by simp [hc])) htail
        simp only [List.flatMap_cons, ih]
        rw [byteHexLower_decode h1 h2 (hall c1 (by simp)) (hall c2 (by simp))]
        rfl
      next => exact Option.noConfusion hd

/-- Round trip at cell level: a lowercase-valid cell decodes and
re-encodes to itself. -/
lemma cell_roundtrip {oc : Option String} (h : lowerValidCell oc) :
    ∃ d, hexToBinaryCell oc = some d ∧ binaryToHexCell d = oc := by
  obtain ⟨s, rest, rfl, hdata, hlower, hsome⟩ := h
  obtain ⟨bs, hbs⟩ := Option.isSome_iff_exists.mp hsome
  refine ⟨some bs, ?_, ?_⟩
  · simp only [hexToBinaryCell, stripHex0x, hdata, hexDecodeStrict]
    rw [hbs]
    rfl
  · simp only [binaryToHexCell, Option.some.injEq]
    have henc : encodeHexLower bs = String.mk rest := by
      unfold encodeHexLower
      rw [decode_encode_chars rest bs hlower hbs]
    rw [henc]
    apply String.ext
    simp only [String.data_append, hdata]
    rfl

lemma getCol_name {tbl : Table} {nm : String} {c : Col} (h : getCol tbl nm = some c) :
    c.name = nm := by
  have := List.find?_some h
  simpa using this

lemma getCol_map {tbl : Table} {nm : String} {f : Col → Col}
    (hf : ∀ c, (f c).name = c.name) :
    getCol (tbl.map f) nm = (getCol tbl nm).map f := by
  induction tbl with
  | nil => rfl
  | cons c t ih =>
      have hpf : (decide ((f c).name = nm)) = (decide (c.name = nm)) := by rw [hf]
      simp only [getCol, List.map_cons, List.find?_cons, hpf] at *
      cases hdec : decide (c.name = nm)
      · simpa [hdec] using ih
      · simp [hdec]

lemma replaceCol_name (al : String) (newCells : List (Option Bytes)) (c : Col) :
    (replaceCol al newCells c).name = c.name := by
  unfold replaceCol
  split
  next h => exact h.symm
  next => rfl

lemma getCol_replace_ne {tbl : Table} {al nm : String} {newCells : List (Option Bytes)}
    (h : nm ≠ al) :
    getCol (tbl.map (replaceCol al newCells)) nm = getCol tbl nm := by
  rw [getCol_map (replaceCol_name al newCells)]
  cases hc : getCol tbl nm with
  | none => rfl
  | some c =>
      have := getCol_name hc
      simp [replaceCol, this, h]

lemma getCol_replace_eq {tbl : Table} {al : String} {newCells : List (Option Bytes)}
    {c : Col} (h : getCol tbl al = some c) :
    getCol (tbl.map (replaceCol al newCells)) al = some (Col.bin al newCells) := by
  rw [getCol_map (replaceCol_name al newCells), h]
  have := getCol_name h
  simp [replaceCol, this]

lemma cells_roundtrip : ∀ (cells : List (Option String)),
    (∀ oc ∈ cells, lowerValidCell oc) →
    ∃ d, mapCellsHexDecode cells = some d ∧ d.map binaryToHexCell = cells
  | [], _ => ⟨[], rfl, rfl⟩
  | oc :: rest, hall => by
      obtain ⟨d0, hd0, hback⟩ := cell_roundtrip (hall oc (by simp))
      obtain ⟨d, hd, hmap⟩ := cells_roundtrip rest (fun x hx => hall x (by simp [hx]))
      refine ⟨d0 :: d, ?_, ?_⟩
      · simp [mapCellsHexDecode, hd0, hd]
      · simp [hmap, hback]

lemma binColToHex_name (c : Col) : (binColToHex c).name = c.name := by
  cases c <;> rfl

lemma mem_hexAliases {schema : List (GlDataType × String)} {e : GlDataType × String}
    (he : e ∈ schema) (hx : e.1 = GlDataType.hexString) : e.2 ∈ hexAliases schema := by
  unfold hexAliases
  exact List.mem_map.mpr ⟨e, List.mem_filter.mpr ⟨he, by simp [hx]⟩, rfl⟩

/-- Behaviour of the hex-to-binary pass under the lowercase validity
hypothesis: it succeeds, leaves non-configured columns alone, and turns
each configured column into its decoded binary form. -/
lemma hex_to_binary_fold : ∀ (schema : List (GlDataType × String)) (tbl : Table),
    (hexAliases schema).Nodup →
    (∀ e ∈ schema, e.1 = GlDataType.hexString →
      ∃ cells, getCol tbl e.2 = some (Col.str e.2 cells) ∧ ∀ oc ∈ cells, lowerValidCell oc) →
    ∃ tbl1, hex_string_columns_to_binary schema tbl = some tbl1 ∧
      (∀ nm, nm ∉ hexAliases schema → getCol tbl1 nm = getCol tbl nm) ∧
      (∀ e ∈ schema, e.1 = GlDataType.hexString →
        ∀ cells, getCol tbl e.2 = some (Col.str e.2 cells) →
          ∃ d, mapCellsHexDecode cells = some d ∧ getCol tbl1 e.2 = some (Col.bin e.2 d))
  | [], tbl, _, _ => ⟨tbl, rfl, fun _ _ => rfl, by simp⟩
  | (dt, al) :: rest, tbl, hnd, hcols => by
      cases dt with
      | binary =>
          have hal : hexAliases ((GlDataType.binary, al) :: rest) = hexAliases rest := by
            simp [hexAliases]
          obtain ⟨tbl1, hfold, hpres, hent⟩ := hex_to_binary_fold rest tbl
            (by rw [hal] at hnd; exact hnd)
            (fun e he hx => hcols e (by simp [he]) hx)
          refine ⟨tbl1, ?_, ?_, ?_⟩
          · simpa [hex_string_columns_to_binary, List.foldlM_cons] using hfold
          · intro nm hnm
            exact hpres nm (by rw [hal] at hnm; exact hnm)
          · intro e he hx cells hc
            rcases List.mem_cons.mp he with heq | hmem
            · rw [heq] at hx; cases hx
            · exact hent e hmem hx cells hc
      | hexString =>
          have hal : hexAliases ((GlDataType.hexString, al) :: rest) = al :: hexAliases rest := by
            simp [hexAliases]
          rw [hal] at hnd
          have hnotin : al ∉ hexAliases rest := (List.nodup_cons.mp hnd).1
          have hnd' : (hexAliases rest).Nodup := (List.nodup_cons.mp hnd).2
          obtain ⟨cells0, hget, hvalid⟩ :=
            hcols (GlDataType.hexString, al) (by simp) rfl
          obtain ⟨d0, hmap0, hback0⟩ := cells_roundtrip cells0 hvalid
          have happ : applyHexDecodeCol tbl al = some (tbl.map (replaceCol al d0)) := by
            unfold applyHexDecodeCol
            rw [hget]
            simp [hmap0]
          have hcols' : ∀ e ∈ rest, e.1 = GlDataType.hexString →
              ∃ cells, getCol (tbl.map (replaceCol al d0)) e.2 = some (Col.str e.2 cells) ∧
                ∀ oc ∈ cells, lowerValidCell oc := by
            intro e he hx
            have hne : e.2 ≠ al := fun h => hnotin (h ▸ mem_hexAliases he hx)
            rw [getCol_replace_ne hne]
            exact hcols e (by simp [he]) hx
          obtain ⟨tbl1, hfold, hpres, hent⟩ :=
            hex_to_binary_fold rest (tbl.map (replaceCol al d0)) hnd' hcols'
          refine ⟨tbl1, ?_, ?_, ?_⟩
          · simpa [hex_string_columns_to_binary, List.foldlM_cons, happ] using hfold
          · intro nm hnm
            rw [hal] at hnm
            have hne : nm ≠ al := fun h => hnm (by simp [h])
            have hni : nm ∉ hexAliases rest := fun h => hnm (by simp [h])
            rw [hpres nm hni, getCol_replace_ne hne]
          · intro e he hx cells hc
            rcases List.mem_cons.mp he with heq | hmem
            · subst heq
              simp only at hc
              rw [hget] at hc
              have hcc : cells = cells0 := by
                cases hc; rfl
              subst hcc
              refine ⟨d0, hmap0, ?_⟩
              rw [hpres al hnotin, getCol_replace_eq hget]
            · have hne : e.2 ≠ al := fun h => hnotin (h ▸ mem_hexAliases hmem hx)
              have hc' : getCol (tbl.map (replaceCol al d0)) e.2 = some (Col.str e.2 cells) := by
                rw [getCol_replace_ne hne]; exact hc
              exact hent e hmem hx cells hc'

/-- C3 (counterexample). The claim asserts the identity round trip for
valid hex strings with a leading 0x or 0X prefix in any letter case, but
the code re-encodes to lowercase: at the concrete cell 0xAB the round
trip yields 0xab, so the claim as stated is false. -/
theorem hex_roundtrip_any_case_counterexample :
    claimValidHexString "0xAB" ∧
    hexRoundTrip [(GlDataType.hexString, "topic0")] [Col.str "topic0" [some "0xAB"]] =
      some [Col.str "topic0" [some "0xab"]] ∧
    hexRoundTrip [(GlDataType.hexString, "topic0")] [Col.str "topic0" [some "0xAB"]] ≠
      some [Col.str "topic0" [some "0xAB"]] := by
  refine ⟨by decide, by decide, by decide⟩

/-- C3 (amended): binary_to_hex after hex_to_binary is the identity on
every column whose configured datatype is hex_string, provided the
configured hex-string aliases are distinct and every such column holds
lowercase-0x-prefixed lowercase hex values. -/
theorem hex_roundtrip_identity (schema : List (GlDataType × String)) (tbl : Table)
    (hnd : (hexAliases schema).Nodup)
    (hcols : ∀ e ∈ schema, e.1 = GlDataType.hexString →
      ∃ cells, getCol tbl e.2 = some (Col.str e.2 cells) ∧ ∀ oc ∈ cells, lowerValidCell oc) :
    ∃ tbl2, hexRoundTrip schema tbl = some tbl2 ∧
      ∀ e ∈ schema, e.1 = GlDataType.hexString → getCol tbl2 e.2 = getCol tbl e.2 := by
  obtain ⟨tbl1, hfold, _, hent⟩ := hex_to_binary_fold schema tbl hnd hcols
  refine ⟨binary_columns_to_hex_string tbl1, ?_, ?_⟩
  · unfold hexRoundTrip
    rw [hfold]
    rfl
  · intro e he hx
    obtain ⟨cells0, hget, hvalid⟩ := hcols e he hx
    obtain ⟨d, hmap, hbin⟩ := hent e he hx cells0 hget
    obtain ⟨d2, hmap2, hback2⟩ := cells_roundtrip cells0 hvalid
    have hdd : d = d2 := by
      rw [hmap] at hmap2
      cases hmap2; rfl
    subst hdd
    unfold binary_columns_to_hex_string
    rw [getCol_map binColToHex_name, hbin, hget]
    simp [binColToHex, hback2]

/-- Witness for hex_roundtrip_identity at a concrete one-column table. -/
theorem hex_roundtrip_identity_witness :
    ∃ tbl2, hexRoundTrip [(GlDataType.hexString, "topic0")]
        [Col.str "topic0" [some "0xab"]] = some tbl2 ∧
      ∀ e ∈ [(GlDataType.hexString, "topic0")], e.1 = GlDataType.hexString →
        getCol tbl2 e.2 = getCol [Col.str "topic0" [some "0xab"]] e.2 :=
  hex_roundtrip_identity _ _ (by decide) (by
    intro e he hx
    have he2 : e = (GlDataType.hexString, "topic0") := by simpa using he
    subst he2
    refine ⟨[some "0xab"], rfl, ?_⟩
    intro oc hoc
    have ho2 : oc = some "0xab" := by simpa using hoc
    subst ho2
    exact ⟨"0xab", ['a', 'b'], rfl, rfl, by decide, by decide⟩)

/-! ## Decoded dynamic values and utils::StrDynSolValue::to_string

DynSolValue models the alloy decoded-value variant. The external Display
implementations are modelled as follows: an alloy FixedBytes word
displays as 0x-prefixed lowercase hex of its 32 bytes; integers display
in decimal; the checksummed address and function displays are carried as
opaque strings inside the constructor, since their exact form is an
external library detail none of the claims depends on. -/

inductive DynSolValue where
  | bool (b : Bool)
  | int (i : Int) (bits : Nat)
  | uint (u : Nat) (bits : Nat)
  | fixedBytes (w : Bytes) (size : Nat)
  | address (display : String)
  | function (display : String)
  | bytes (b : Bytes)
  | string (s : String)
  | array (xs : List DynSolValue)
  | fixedArray (xs : List DynSolValue)
  | tuple (xs : List DynSolValue)

/-- Display of an alloy FixedBytes word: 0x-prefixed lowercase hex. -/
def fixedBytesDisplay (w : Bytes) : String :=
  "0x" ++ encodeHexLower w

mutual

/-- Translation of utils::StrDynSolValue::to_string. Note the
FixedBytes arm: the Rust code formats 0x followed by the word display,
which is itself already 0x-prefixed. -/
def DynSolValue.to_string : DynSolValue → Option String
  | .bool b => some (if b then "true" else "false")
  | .int i _ => some (toString i)
  | .uint u _ => some (toString u)
  | .fixedBytes w _ => some ("0x" ++ fixedBytesDisplay w)
  | .address d => some d
  | .function d => some d
  | .bytes b => some ("0x" ++ encodeHexLower b)
  | .string s => some s
  | .array arr => some ("[" ++ String.intercalate ", " (DynSolValue.toStringList arr) ++ "]")
  | .fixedArray arr => some ("[" ++ String.intercalate ", " (DynSolValue.toStringList arr) ++ "]")
  | .tuple t => some ("(" ++ String.intercalate ", " (DynSolValue.toStringList t) ++ ")")

/-- The filter_map of to_string over the elements of a compound value. -/
def DynSolValue.toStringList : List DynSolValue → List String
  | [] => []
  | v :: vs =>
      match DynSolValue.to_string v with
      | some s => s :: DynSolValue.toStringList vs
      | none => DynSolValue.toStringList vs

end

/-- C8 (code bug). Evaluations of the stringify function: boolean,
integer, bytes, string, array and tuple values render as the claim says,
but a fixed-size byte value renders with a doubled 0x: the code formats
0x in front of the word display which is itself 0x-prefixed. At the
concrete 32-byte word ab...ab the output is 0x0xab...ab, not 0xab...ab. -/
theorem stringify_fixed_bytes_double_prefix :
    DynSolValue.to_string (.bool true) = some "true" ∧
    DynSolValue.to_string (.bool false) = some "false" ∧
    DynSolValue.to_string (.int (-5) 256) = some "-5" ∧
    DynSolValue.to_string (.uint 100 256) = some "100" ∧
    DynSolValue.to_string (.bytes []) = some "0x" ∧
    DynSolValue.to_string (.bytes [171, 1]) = some "0xab01" ∧
    DynSolValue.to_string (.string "hello") = some "hello" ∧
    DynSolValue.to_string (.array [.uint 1 8, .uint 2 8]) = some "[1, 2]" ∧
    DynSolValue.to_string (.tuple [.bool true, .uint 2 8]) = some "(true, 2)" ∧
    DynSolValue.to_string (.fixedBytes (List.replicate 32 171) 32) =
      some ("0x0x" ++ encodeHexLower (List.replicate 32 171)) ∧
    ("0x0x" ++ encodeHexLower (List.replicate 32 171)) ≠
      ("0x" ++ encodeHexLower (List.replicate 32 171)) := by
  refine ⟨rfl, rfl, rfl, rfl, rfl, by decide, rfl, by decide, by decide, by decide, by decide⟩

/-! ## Per-row kernels (log_decoder.rs and trace_decoder.rs)

The alloy parsing and abi-decoding primitives, and the serde_json
serializer, are external libraries; they are bundled as an abstract
AlloyModel parameter, so the kernel theorems hold for any instantiation
of those primitives. -/

/-- One parameter of a parsed event signature (alloy EventParam). -/
structure EventParam where
  name : String
  ty : String
  indexed : Bool
deriving DecidableEq, Repr

/-- A parsed event signature (alloy Event). -/
structure EventSig where
  name : String
  inputs : List EventParam
  anonymous : Bool
deriving DecidableEq, Repr

/-- One parameter of a parsed function signature (alloy Param). -/
structure FnParam where
  name : String
  ty : String
deriving DecidableEq, Repr

/-- A parsed function signature (alloy Function). -/
structure FunctionSig where
  name : String
  inputs : List FnParam
  outputs : List FnParam
deriving DecidableEq, Repr

/-- Result of alloy decode_log_parts: indexed values then body values. -/
structure DecodedEvent where
  indexed : List DynSolValue
  body : List DynSolValue

/-- A record of the serialized event_json / input_json / output_json
(StructuredParam in decoder.rs, StructuredFunctionParam in
trace_decoder.rs). -/
structure StructuredParam where
  name : String
  index : Nat
  value_type : String
  value : String
deriving DecidableEq, Repr

/-- The three derived event columns of one row. -/
structure ExtDecodedEvent where
  event_values : List String
  event_keys : List String
  event_json : String

/-- The six derived function columns of one row. -/
structure ExtDecodedFunction where
  input_values : List String
  input_keys : List String
  input_json : String
  output_values : List String
  output_keys : List String
  output_json : String

/-- External library primitives: alloy signature parsing, per-row
decoding, and JSON serialization of the structured parameter records. -/
structure AlloyModel where
  parseEvent : String → Option EventSig
  decodeLogParts : EventSig → List Bytes → Bytes → Option DecodedEvent
  parseFunction : String → Option FunctionSig
  abiDecodeInput : FunctionSig → Bytes → Option (List DynSolValue)
  abiDecodeOutput : FunctionSig → Bytes → Option (List DynSolValue)
  serializeJson : List StructuredParam → String

/-- Pairs the i-th ordered input with the i-th decoded value, starting
at index i0; the callers establish that both lists have equal length. -/
def buildStructured : Nat → List EventParam → List DynSolValue → List StructuredParam
  | _, [], _ => []
  | _, _ :: _, [] => []
  | i, inp :: inps, v :: vs =>
      { name := inp.name, index := i, value_type := inp.ty,
        value := (DynSolValue.to_string v).getD "None" } :: buildStructured (i + 1) inps vs

/-- Translation of decoder.rs map_event_sig_and_values: error when the
value count differs from the signature input count, otherwise reorder
the inputs as indexed-then-non-indexed and pair positionally. -/
def map_event_sig_and_values (event_sig : EventSig) (event_values : List DynSolValue) :
    Option (List StructuredParam) :=
  if event_values.length ≠ event_sig.inputs.length then none
  else
    let parts := event_sig.inputs.partition (fun e => e.indexed)
    some (buildStructured 0 (parts.1 ++ parts.2) event_values)

/-- The indexed-then-non-indexed reordering of the event inputs. -/
def orderedInputs (event_sig : EventSig) : List EventParam :=
  (event_sig.inputs.partition (fun e => e.indexed)).1 ++
    (event_sig.inputs.partition (fun e => e.indexed)).2

/-- Positional pairing for function parameters (same shape for inputs
and outputs). -/
def buildStructuredFn : Nat → List FnParam → List DynSolValue → List StructuredParam
  | _, [], _ => []
  | _, _ :: _, [] => []
  | i, p :: ps, v :: vs =>
      { name := p.name, index := i, value_type := p.ty,
        value := (DynSolValue.to_string v).getD "None" } :: buildStructuredFn (i + 1) ps vs

/-- Translation of trace_decoder.rs map_function_params. -/
def map_function_params (params : List FnParam) (values : List DynSolValue) :
    Option (List StructuredParam) :=
  if values.length ≠ params.length then none
  else some (buildStructuredFn 0 params values)

/-- Translation of the per-row event decode (decoder.rs / log_decoder.rs
decode): parse the signature, decode the log parts, concatenate indexed
and body values, build the structured records, and render the three
derived columns. -/
def decodeEventRow (m : AlloyModel) (full_signature : String)
    (topics : List Bytes) (data : Bytes) : Option ExtDecodedEvent := do
  let event_sig ← m.parseEvent full_signature
  let decoded_event ← m.decodeLogParts event_sig topics data
  let event_values := decoded_event.indexed ++ decoded_event.body
  let structured_event ← map_event_sig_and_values event_sig event_values
  let event_keys := structured_event.map (fun p => p.name)
  let event_json := m.serializeJson structured_event
  let event_values_str := event_values.map (fun d => (DynSolValue.to_string d).getD "None")
  pure { event_values := event_values_str, event_keys := event_keys, event_json := event_json }

/-- Translation of the per-row function decode (trace_decoder.rs
decode): parse the signature, abi-decode input and output, and render
the six derived columns. -/
def decodeFunctionRow (m : AlloyModel) (input output : Bytes) (full_signature : String) :
    Option ExtDecodedFunction := do
  let function_obj ← m.parseFunction full_signature
  let decoded_input ← m.abiDecodeInput function_obj input
  let decoded_output ← m.abiDecodeOutput function_obj output
  let structured_inputs ← map_function_params function_obj.inputs decoded_input
  let structured_outputs ← map_function_params function_obj.outputs decoded_output
  let input_keys := structured_inputs.map (fun p => p.name)
  let output_keys := structured_outputs.map (fun p => p.name)
  let input_json := m.serializeJson structured_inputs
  let output_json := m.serializeJson structured_outputs
  let input_values := decoded_input.map (fun d => (DynSolValue.to_string d).getD "None")
  let output_values := decoded_output.map (fun d => (DynSolValue.to_string d).getD "None")
  pure { input_values := input_values, input_keys := input_keys, input_json := input_json,
         output_values := output_values, output_keys := output_keys,
         output_json := output_json }

/-- A raw log row as seen by the kernel: the six schema columns plus the
matched full_signature; every cell is nullable. -/
structure RawLogRow where
  topic0 : Option Bytes
  topic1 : Option Bytes
  topic2 : Option Bytes
  topic3 : Option Bytes
  data : Option Bytes
  address : Option Bytes
  full_signature : Option String
deriving DecidableEq, Repr

/-- A decoded log row: the raw row extended with the three derived
string columns produced by splitting the udf output. -/
structure DecodedLogRow where
  raw : RawLogRow
  event_values : Option String
  event_keys : Option String
  event_json : Option String
deriving DecidableEq, Repr

/-- A raw trace row as seen by the kernel. -/
structure RawTraceRow where
  selector : Option Bytes
  action_input : Option Bytes
  result_output : Option Bytes
  action_to : Option Bytes
  full_signature : Option String
deriving DecidableEq, Repr

/-- A decoded trace row: the raw row extended with the six derived
string columns. -/
structure DecodedTraceRow where
  raw : RawTraceRow
  input_values : Option String
  input_keys : Option String
  input_json : Option String
  output_values : Option String
  output_keys : Option String
  output_json : Option String
deriving DecidableEq, Repr

/-- The all-zero 32-byte topic used for null topics. -/
def zeroFilledTopic : Bytes := List.replicate 32 0

/-- Rust Debug rendering of a vector of strings (escaping of inner
quotes is not modelled; no claim depends on it). -/
def fmtDebugList (l : List String) : String :=
  "[" ++ String.intercalate ", " (l.map (fun s => "\"" ++ s ++ "\"")) ++ "]"

/-- Translation of decode_log_udf plus extract_log_fields at row level:
null topics become the zero-filled topic, null data the empty byte
string and a null signature the empty string; a failed decode maps to a
null udf output. -/
def decode_log_udf (m : AlloyModel) (r : RawLogRow) : Option String :=
  let topics := [r.topic0.getD zeroFilledTopic, r.topic1.getD zeroFilledTopic,
    r.topic2.getD zeroFilledTopic, r.topic3.getD zeroFilledTopic]
  let data := r.data.getD []
  let sig := r.full_signature.getD ""
  (decodeEventRow m sig topics data).map (fun ev =>
    fmtDebugList ev.event_values ++ "; " ++ fmtDebugList ev.event_keys ++ "; " ++ ev.event_json)

/-- Translation of decode_trace_udf plus extract_trace_fields. -/
def decode_trace_udf (m : AlloyModel) (r : RawTraceRow) : Option String :=
  let input := r.action_input.getD []
  let output := r.result_output.getD []
  let sig := r.full_signature.getD ""
  (decodeFunctionRow m input output sig).map (fun f =>
    fmtDebugList f.input_values ++ "; " ++ fmtDebugList f.input_keys ++ "; " ++
      f.input_json ++ "; " ++ fmtDebugList f.output_values ++ "; " ++
      fmtDebugList f.output_keys ++ "; " ++ f.output_json)

/-- The polars expression splitting the udf output column: split on the
semicolon literal and take the i-th part; null propagates. -/
def splitGet (o : Option String) (i : Nat) : Option String :=
  o.bind (fun s => (s.splitOn ";").get? i)

/-- Translation of polars_decode_logs before the optional output hex
re-encoding (which only changes the representation of binary columns and
leaves the three derived string columns and the row count unchanged). -/
def polars_decode_logs (m : AlloyModel) (rows : List RawLogRow) : List DecodedLogRow :=
  rows.map (fun r =>
    let decoded_log := decode_log_udf m r
    { raw := r, event_values := splitGet decoded_log 0,
      event_keys := splitGet decoded_log 1, event_json := splitGet decoded_log 2 })

/-- Translation of polars_decode_trace before the optional output hex
re-encoding. -/
def polars_decode_trace (m : AlloyModel) (rows : List RawTraceRow) : List DecodedTraceRow :=
  rows.map (fun r =>
    let decoded_trace := decode_trace_udf m r
    { raw := r, input_values := splitGet decoded_trace 0,
      input_keys := splitGet decoded_trace 1, input_json := splitGet decoded_trace 2,
      output_values := splitGet decoded_trace 3, output_keys := splitGet decoded_trace 4,
      output_json := splitGet decoded_trace 5 })

/-- A concrete instantiation of the external alloy primitives, used to
exhibit the kernel theorems on closed inputs. -/
def demoEventSig : EventSig :=
  { name := "E", inputs := [{ name := "a", ty := "uint256", indexed := false }],
    anonymous := false }

/-- A concrete parsed function signature for the demo model. -/
def demoFnSig : FunctionSig :=
  { name := "f", inputs := [{ name := "x", ty := "uint256" }],
    outputs := [{ name := "", ty := "bool" }] }

/-- Demo instantiation of the external primitives: one event signature,
one function signature; everything else fails to parse. -/
def demoModel : AlloyModel where
  parseEvent := fun s => if s = "E(uint256 a)" then some demoEventSig else none
  decodeLogParts := fun _ _ _ => some { indexed := [], body := [.uint 5 256] }
  parseFunction := fun s => if s = "f(uint256)" then some demoFnSig else none
  abiDecodeInput := fun _ _ => some [.uint 7 256]
  abiDecodeOutput := fun _ _ => some [.bool true]
  serializeJson := fun _ => "[]"

/-- A raw log row with a null full_signature (unmatched). -/
def nullSigLogRow : RawLogRow :=
  { topic0 := some zeroFilledTopic, topic1 := none, topic2 := none, topic3 := none,
    data := none, address := none, full_signature := none }

/-- A raw trace row with a null full_signature (unmatched). -/
def nullSigTraceRow : RawTraceRow :=
  { selector := some [1, 2, 3, 4], action_input := none, result_output := none,
    action_to := none, full_signature := none }

/-- C5. For any instantiation of the external primitives on which the
empty string fails to parse (as it does in alloy), both kernels keep
every row whose full_signature is null and emit null for all derived
columns of that row: the null signature is read as the empty string,
parsing fails, the udf output is null, and each split column of a null
udf output is null. -/
theorem null_signature_rows_preserved :
    (∀ (m : AlloyModel) (rows : List RawLogRow), m.parseEvent "" = none →
      (polars_decode_logs m rows).length = rows.length ∧
      ∀ (i : Nat) (r : RawLogRow), rows[i]? = some r → r.full_signature = none →
        ∃ out, (polars_decode_logs m rows)[i]? = some out ∧ out.raw = r ∧
          out.event_values = none ∧ out.event_keys = none ∧ out.event_json = none) ∧
    (∀ (m : AlloyModel) (rows : List RawTraceRow), m.parseFunction "" = none →
      (polars_decode_trace m rows).length = rows.length ∧
      ∀ (i : Nat) (r : RawTraceRow), rows[i]? = some r → r.full_signature = none →
        ∃ out, (polars_decode_trace m rows)[i]? = some out ∧ out.raw = r ∧
          out.input_values = none ∧ out.input_keys = none ∧ out.input_json = none ∧
          out.output_values = none ∧ out.output_keys = none ∧ out.output_json = none) := by
  constructor
  · intro m rows hparse
    refine ⟨by simp [polars_decode_logs], ?_⟩
    intro i r hi hsig
    have hudf : decode_log_udf m r = none := by
      simp [decode_log_udf, hsig, decodeEventRow, hparse]
    refine ⟨{ raw := r, event_values := splitGet (decode_log_udf m r) 0,
              event_keys := splitGet (decode_log_udf m r) 1,
              event_json := splitGet (decode_log_udf m r) 2 }, ?_, rfl, ?_, ?_, ?_⟩
    · simp [polars_decode_logs, List.getElem?_map, hi]
    all_goals simp [hudf, splitGet]
  · intro m rows hparse
    refine ⟨by simp [polars_decode_trace], ?_⟩
    intro i r hi hsig
    have hudf : decode_trace_udf m r = none := by
      simp [decode_trace_udf, hsig, decodeFunctionRow, hparse]
    refine ⟨{ raw := r, input_values := splitGet (decode_trace_udf m r) 0,
              input_keys := splitGet (decode_trace_udf m r) 1,
              input_json := splitGet (decode_trace_udf m r) 2,
              output_values := splitGet (decode_trace_udf m r) 3,
              output_keys := splitGet (decode_trace_udf m r) 4,
              output_json := splitGet (decode_trace_udf m r) 5 }, ?_, rfl, ?_, ?_, ?_, ?_, ?_, ?_⟩
    · simp [polars_decode_trace, List.getElem?_map, hi]
    all_goals simp [hudf, splitGet]

/-- Witness for null_signature_rows_preserved at the demo model and a
concrete unmatched row of each kind. -/
theorem null_signature_rows_preserved_witness :
    (∃ out, (polars_decode_logs demoModel [nullSigLogRow])[0]? = some out ∧
      out.raw = nullSigLogRow ∧ out.event_values = none ∧ out.event_keys = none ∧
      out.event_json = none) ∧
    (∃ out, (polars_decode_trace demoModel [nullSigTraceRow])[0]? = some out ∧
      out.raw = nullSigTraceRow ∧ out.input_values = none ∧ out.input_keys = none ∧
      out.input_json = none ∧ out.output_values = none ∧ out.output_keys = none ∧
      out.output_json = none) := by
  constructor
  · exact (null_signature_rows_preserved.1 demoModel [nullSigLogRow] (by decide)).2
      0 nullSigLogRow rfl rfl
  · exact (null_signature_rows_preserved.2 demoModel [nullSigTraceRow] (by decide)).2
      0 nullSigTraceRow rfl rfl

lemma buildStructured_length : ∀ (i : Nat) (inps : List EventParam) (vs : List DynSolValue),
    inps.length = vs.length → (buildStructured i inps vs).length = inps.length
  | _, [], _, _ => rfl
  | _, _ :: _, [], h => by cases h
  | i, _ :: inps, _ :: vs, h => by
      simp only [buildStructured, List.length_cons]
      rw [buildStructured_length (i + 1) inps vs (by simpa using h)]

lemma buildStructured_indices : ∀ (i : Nat) (inps : List EventParam) (vs : List DynSolValue),
    inps.length = vs.length →
    (buildStructured i inps vs).map (fun p => p.index) = List.range' i inps.length
  | _, [], _, _ => rfl
  | _, _ :: _, [], h => by cases h
  | i, _ :: inps, _ :: vs, h => by
      simp only [buildStructured, List.map_cons, List.length_cons, List.range']
      rw [buildStructured_indices (i + 1) inps vs (by simpa using h)]

lemma buildStructured_names : ∀ (i : Nat) (inps : List EventParam) (vs : List DynSolValue),
    inps.length = vs.length →
    (buildStructured i inps vs).map (fun p => p.name) = inps.map (fun p => p.name)
  | _, [], _, _ => rfl
  | _, _ :: _, [], h => by cases h
  | i, _ :: inps, _ :: vs, h => by
      simp only [buildStructured, List.map_cons]
      rw [buildStructured_names (i + 1) inps vs (by simpa using h)]

lemma buildStructuredFn_length : ∀ (i : Nat) (ps : List FnParam) (vs : List DynSolValue),
    ps.length = vs.length → (buildStructuredFn i ps vs).length = ps.length
  | _, [], _, _ => rfl
  | _, _ :: _, [], h => by cases h
  | i, _ :: ps, _ :: vs, h => by
      simp only [buildStructuredFn, List.length_cons]
      rw [buildStructuredFn_length (i + 1) ps vs (by simpa using h)]

lemma orderedInputs_length (ev : EventSig) : (orderedInputs ev).length = ev.inputs.length := by
  unfold orderedInputs
  rw [List.partition_eq_filter_filter]
  simp only [List.length_append, Function.comp]
  exact (List.length_eq_length_filter_add _).symm

/-- C6. Whenever a per-row decode succeeds, the derived value list and
key list have the same length as the parameter list of the parsed
signature; the event keys come from the structured records whose indices
are exactly the 0-based positions in the indexed-then-non-indexed order;
the analogous count equalities hold for function inputs and outputs. -/
theorem decoded_param_counts :
    (∀ (m : AlloyModel) (sig : String) (topics : List Bytes) (data : Bytes)
        (ext : ExtDecodedEvent), decodeEventRow m sig topics data = some ext →
      ∃ (ev : EventSig) (structured : List StructuredParam), m.parseEvent sig = some ev ∧
        ext.event_values.length = ev.inputs.length ∧
        ext.event_keys.length = ev.inputs.length ∧
        ext.event_keys = structured.map (fun p => p.name) ∧
        structured.map (fun p => p.index) = List.range ev.inputs.length ∧
        structured.map (fun p => p.name) = (orderedInputs ev).map (fun p => p.name)) ∧
    (∀ (m : AlloyModel) (input output : Bytes) (sig : String) (f : ExtDecodedFunction),
        decodeFunctionRow m input output sig = some f →
      ∃ fn, m.parseFunction sig = some fn ∧
        f.input_values.length = fn.inputs.length ∧
        f.input_keys.length = fn.inputs.length ∧
        f.output_values.length = fn.outputs.length ∧
        f.output_keys.length = fn.outputs.length) := by
  constructor
  · intro m sig topics data ext h
    unfold decodeEventRow at h
    cases hp : m.parseEvent sig with
    | none => rw [hp] at h; cases h
    | some ev =>
        rw [hp] at h
        simp only [Option.bind_eq_bind, Option.some_bind] at h
        cases hd : m.decodeLogParts ev topics data with
        | none => rw [hd] at h; cases h
        | some de =>
            rw [hd] at h
            simp only [Option.some_bind] at h
            cases hs : map_event_sig_and_values ev (de.indexed ++ de.body) with
            | none => rw [hs] at h; cases h
            | some structured =>
                rw [hs] at h
                simp only [Option.some_bind, Option.pure_def, Option.some.injEq] at h
                subst h
                unfold map_event_sig_and_values at hs
                split at hs
                next => cases hs
                next hlen =>
                    have hlen2 : (de.indexed ++ de.body).length = ev.inputs.length := by
                      omega
                    simp only [Option.some.injEq] at hs
                    have hol : ((ev.inputs.partition (fun e => e.indexed)).1 ++
                        (ev.inputs.partition (fun e => e.indexed)).2).length =
                        ev.inputs.length := orderedInputs_length ev
                    refine ⟨ev, structured, rfl, ?_, ?_, rfl, ?_, ?_⟩
                    · simpa using hlen2
                    · rw [← hs]
                      simp only [List.length_map]
                      rw [buildStructured_length 0 _ _ (by omega)]
                      exact hol
                    · rw [← hs, buildStructured_indices 0 _ _ (by omega), hol]
                      exact (List.range_eq_range' ev.inputs.length).symm
                    · rw [← hs, buildStructured_names 0 _ _ (by omega)]
                      rfl
  · intro m input output sig f h
    unfold decodeFunctionRow at h
    cases hp : m.parseFunction sig with
    | none => rw [hp] at h; cases h
    | some fn =>
        rw [hp] at h
        simp only [Option.bind_eq_bind, Option.some_bind] at h
        cases hi : m.abiDecodeInput fn input with
        | none => rw [hi] at h; cases h
        | some din =>
            rw [hi] at h
            simp only [Option.some_bind] at h
            cases ho : m.abiDecodeOutput fn output with
            | none => rw [ho] at h; cases h
            | some dout =>
                rw [ho] at h
                simp only [Option.some_bind] at h
                cases hsi : map_function_params fn.inputs din with
                | none => rw [hsi] at h; cases h
                | some sin =>
                    rw [hsi] at h
                    simp only [Option.some_bind] at h
                    cases hso : map_function_params fn.outputs dout with
                    | none => rw [hso] at h; cases h
                    | some sout =>
                        rw [hso] at h
                        simp only [Option.some_bind, Option.pure_def,
                          Option.some.injEq] at h
                        subst h
                        unfold map_function_params at hsi hso
                        split at hsi
                        next => cases hsi
                        next hlen1 =>
                          split at hso
                          next => cases hso
                          next hlen2 =>
                            simp only [Option.some.injEq] at hsi hso
                            refine ⟨fn, rfl, ?_, ?_, ?_, ?_⟩
                            · simpa using (by omega : din.length = fn.inputs.length)
                            · rw [← hsi]
                              simp only [List.length_map]
                              exact buildStructuredFn_length 0 _ _ (by omega)
                            · simpa using (by omega : dout.length = fn.outputs.length)
                            · rw [← hso]
                              simp only [List.length_map]
                              exact buildStructuredFn_length 0 _ _ (by omega)

/-- Witness for decoded_param_counts at the demo model: one successful
event decode and one successful function decode. -/
theorem decoded_param_counts_witness :
    (∃ (ev : EventSig) (structured : List StructuredParam),
      demoModel.parseEvent "E(uint256 a)" = some ev ∧
      (["5"] : List String).length = ev.inputs.length ∧
      (["a"] : List String).length = ev.inputs.length ∧
      (["a"] : List String) = structured.map (fun p => p.name) ∧
      structured.map (fun p => p.index) = List.range ev.inputs.length ∧
      structured.map (fun p => p.name) = (orderedInputs ev).map (fun p => p.name)) ∧
    (∃ fn, demoModel.parseFunction "f(uint256)" = some fn ∧
      (["7"] : List String).length = fn.inputs.length ∧
      (["x"] : List String).length = fn.inputs.length ∧
      (["true"] : List String).length = fn.outputs.length ∧
      ([""] : List String).length = fn.outputs.length) := by
  constructor
  · exact decoded_param_counts.1 demoModel "E(uint256 a)" [] []
      { event_values := ["5"], event_keys := ["a"], event_json := "[]" } rfl
  · exact decoded_param_counts.2 demoModel [] [] "f(uint256)"
      { input_values := ["7"], input_keys := ["x"], input_json := "[]",
        output_values := ["true"], output_keys := [""], output_json := "[]" } rfl

/-! ## Chunking (decode_logs in decoder.rs, decode_traces in trace_decoder.rs)

The while loop takes slice(i, min(i + decoded_chunk_size, total) - i)
and advances i to the slice end. The fuel argument bounds the number of
iterations by the row count; for any positive chunk size one iteration
consumes at least one row, so the fuel never runs out and the model
agrees with the Rust loop (which does not terminate on a zero chunk
size, a value the configuration model excludes). -/

def chunkSlicesFuel {α : Type} (chunkSize : Nat) : Nat → List α → List (List α)
  | 0, _ => []
  | _, [] => []
  | fuel + 1, rows => rows.take chunkSize :: chunkSlicesFuel chunkSize fuel (rows.drop chunkSize)

/-- The chunk partition of the matched table performed by decode_logs
and decode_traces before spawning one task per slice. -/
def decode_chunks {α : Type} (chunkSize : Nat) (rows : List α) : List (List α) :=
  chunkSlicesFuel chunkSize rows.length rows

lemma chunkSlicesFuel_spec {α : Type} (chunkSize : Nat) (hcs : 0 < chunkSize) :
    ∀ (fuel : Nat) (rows : List α), rows.length ≤ fuel →
      (chunkSlicesFuel chunkSize fuel rows).flatten = rows ∧
      ∀ c ∈ chunkSlicesFuel chunkSize fuel rows, c.length ≤ chunkSize ∧ c ≠ []
  | 0, rows, h => by
      have : rows = [] := List.length_eq_zero.mp (Nat.le_zero.mp h)
      subst this
      exact ⟨rfl, by simp [chunkSlicesFuel]⟩
  | fuel + 1, [], _ => ⟨rfl, by simp [chunkSlicesFuel]⟩
  | fuel + 1, r :: rs, h => by
      have hlen : ((r :: rs).drop chunkSize).length ≤ fuel := by
        simp only [List.length_drop, List.length_cons] at *
        omega
      obtain ⟨hflat, hall⟩ := chunkSlicesFuel_spec chunkSize hcs fuel ((r :: rs).drop chunkSize) hlen
      constructor
      · simp only [chunkSlicesFuel, List.flatten_cons, hflat]
        exact List.take_append_drop chunkSize (r :: rs)
      · intro c hc
        simp only [chunkSlicesFuel, List.mem_cons] at hc
        rcases hc with rfl | hc
        · refine ⟨List.length_take_le _ _, ?_⟩
          have : ((r :: rs).take chunkSize).length = min chunkSize (r :: rs).length := by
            simp
          intro hnil
          rw [hnil] at this
          simp only [List.length_nil, List.length_cons] at this
          omega
        · exact hall c hc

/-- C7. For a positive decoded_chunk_size (the configuration declares it
a positive int; its default is 500000), the chunking stage partitions
the matched table into contiguous slices in row order: concatenating the
slices in order gives back exactly the input rows, every slice is
nonempty, and every slice holds at most decoded_chunk_size rows. -/
theorem decode_chunks_partition {α : Type} (chunkSize : Nat) (hcs : 0 < chunkSize)
    (rows : List α) :
    (decode_chunks chunkSize rows).flatten = rows ∧
    ∀ c ∈ decode_chunks chunkSize rows, c.length ≤ chunkSize ∧ c ≠ [] :=
  chunkSlicesFuel_spec chunkSize hcs rows.length rows le_rfl

/-- Witness for decode_chunks_partition: three rows in chunks of two. -/
theorem decode_chunks_partition_witness :
    (decode_chunks 2 [10, 20, 30]).flatten = [10, 20, 30] ∧
    ∀ c ∈ decode_chunks 2 ([10, 20, 30] : List Nat), c.length ≤ 2 ∧ c ≠ [] :=
  decode_chunks_partition 2 (by decide) [10, 20, 30]

/-! ## Matcher (matcher.rs)

Dataframes are lists of records; a left join emits, for each left row in
order, one row per matching right row, or a single null-extended row
when there is no match; group_by groups in first-occurrence order; the
sort is modelled by a stable merge sort (polars does not promise a tie
order, and no theorem below depends on the tie-break). -/

/-- A raw log row as seen by the matcher (schema columns only). -/
structure LogRow where
  topic0 : Option Bytes
  topic1 : Option Bytes
  topic2 : Option Bytes
  topic3 : Option Bytes
  data : Option Bytes
  address : Option Bytes
deriving DecidableEq, Repr

/-- A catalog row (the abi_df columns used by the matcher). -/
structure AbiRow where
  address : Bytes
  hash : Bytes
  full_signature : String
  name : String
  anonymous : Option Bool
  num_indexed_args : Option Nat
  state_mutability : Option String
  id : String
deriving DecidableEq, Repr

/-- The catalog columns appended to a log row by either matching pass
(the join keys hash, address and num_indexed_args are consumed). -/
structure LogAbiJoin where
  full_signature : String
  name : String
  anonymous : Option Bool
  state_mutability : Option String
  id : String
deriving DecidableEq, Repr

/-- A row of the matched log table: the raw columns, the computed
num_indexed_args, and the appended catalog columns (none = unmatched). -/
structure MatchedLogRow where
  log : LogRow
  num_indexed_args : Nat
  abi : Option LogAbiJoin
deriving DecidableEq, Repr

/-- The computed num_indexed_args column:
1 + (topic1 is not null) + (topic2 is not null) + (topic3 is not null). -/
def numIndexedArgs (r : LogRow) : Nat :=
  1 + (if r.topic1.isSome then 1 else 0) + (if r.topic2.isSome then 1 else 0) +
    (if r.topic3.isSome then 1 else 0)

/-- The appended catalog columns of a first-pass match. -/
def logAbiJoinOf (a : AbiRow) : LogAbiJoin :=
  { full_signature := a.full_signature, name := a.name, anonymous := a.anonymous,
    state_mutability := a.state_mutability, id := a.id }

/-- Translation of match_logs_by_topic0_address: compute
num_indexed_args per raw row, then left-join the catalog on
(topic0, address, num_indexed_args) against (hash, address,
num_indexed_args). -/
def match_logs_by_topic0_address (logs : List LogRow) (abi : List AbiRow) :
    List MatchedLogRow :=
  logs.flatMap (fun r =>
    let n := numIndexedArgs r
    let ms := abi.filter (fun a =>
      decide (r.topic0 = some a.hash) && decide (r.address = some a.address) &&
        decide (a.num_indexed_args = some n))
    if ms.isEmpty then [{ log := r, num_indexed_args := n, abi := none }]
    else ms.map (fun a => { log := r, num_indexed_args := n, abi := some (logAbiJoinOf a) }))

/-- Grouping in first-occurrence order with explicit iteration fuel
(each step consumes at least one row, so a fuel of the list length makes
the fuel irrelevant): each group is represented by its first row (the
row all().first() keeps) together with the group size (len(), the
signature_count). -/
def groupByFirstFuel {κ : Type} [DecidableEq κ] (key : AbiRow → κ) :
    Nat → List AbiRow → List (AbiRow × Nat)
  | 0, _ => []
  | _, [] => []
  | fuel + 1, a :: rest =>
      (a, 1 + (rest.filter (fun b => decide (key b = key a))).length) ::
        groupByFirstFuel key fuel (rest.filter (fun b => ! decide (key b = key a)))

/-- Grouping in first-occurrence order with counts. -/
def groupByFirst {κ : Type} [DecidableEq κ] (key : AbiRow → κ) (l : List AbiRow) :
    List (AbiRow × Nat) :=
  groupByFirstFuel key l.length l

/-- Sort by signature_count descending (SortOptions descending, nulls
last; the counts are never null), modelled by a stable sort. -/
def sortByCountDesc (l : List (AbiRow × Nat)) : List (AbiRow × Nat) :=
  List.insertionSort (fun x y => y.2 ≤ x.2) l

/-- Second group_by with explicit iteration fuel: keep the first row per
key in list order. -/
def dedupByKeyFuel {κ : Type} [DecidableEq κ] (key : AbiRow × Nat → κ) :
    Nat → List (AbiRow × Nat) → List (AbiRow × Nat)
  | 0, _ => []
  | _, [] => []
  | fuel + 1, g :: rest =>
      g :: dedupByKeyFuel key fuel (rest.filter (fun h => ! decide (key h = key g)))

/-- Second group_by: keep the first row per key in list order. -/
def dedupByKey {κ : Type} [DecidableEq κ] (key : AbiRow × Nat → κ)
    (l : List (AbiRow × Nat)) : List (AbiRow × Nat) :=
  dedupByKeyFuel key l.length l

/-- The first group_by key of the log two-pass matcher. -/
def logSigKey (a : AbiRow) : Bytes × String × String × Option Bool × Option Nat :=
  (a.hash, a.full_signature, a.name, a.anonymous, a.num_indexed_args)

/-- The second group_by key of the log two-pass matcher. -/
def logHashNumKey (g : AbiRow × Nat) : Bytes × Option Nat :=
  (g.1.hash, g.1.num_indexed_args)

/-- A row of the log signature-frequency table: the catalog columns
minus address and signature_count, which are dropped. -/
structure LogFreqRow where
  hash : Bytes
  full_signature : String
  name : String
  anonymous : Option Bool
  num_indexed_args : Option Nat
  state_mutability : Option String
  id : String
deriving DecidableEq, Repr

/-- The log signature-frequency table: group the catalog by (hash,
full_signature, name, anonymous, num_indexed_args) with counts, sort by
count descending, keep the first row per (hash, num_indexed_args), and
drop address and signature_count. -/
def log_signature_freq_table (abi : List AbiRow) : List LogFreqRow :=
  (dedupByKey logHashNumKey (sortByCountDesc (groupByFirst logSigKey abi))).map
    (fun g =>
      { hash := g.1.hash, full_signature := g.1.full_signature, name := g.1.name,
        anonymous := g.1.anonymous, num_indexed_args := g.1.num_indexed_args,
        state_mutability := g.1.state_mutability, id := g.1.id })

/-- The appended columns of a second-pass match. -/
def logFreqJoinOf (f : LogFreqRow) : LogAbiJoin :=
  { full_signature := f.full_signature, name := f.name, anonymous := f.anonymous,
    state_mutability := f.state_mutability, id := f.id }

/-- The second-pass left join of the unmatched raw rows (with
num_indexed_args recomputed) against the signature-frequency table on
(topic0, num_indexed_args). -/
def joinLogsFreq (rows : List LogRow) (freq : List LogFreqRow) : List MatchedLogRow :=
  rows.flatMap (fun r =>
    let n := numIndexedArgs r
    let ms := freq.filter (fun f =>
      decide (r.topic0 = some f.hash) && decide (f.num_indexed_args = some n))
    if ms.isEmpty then [{ log := r, num_indexed_args := n, abi := none }]
    else ms.map (fun f => { log := r, num_indexed_args := n, abi := some (logFreqJoinOf f) }))

/-- Translation of match_logs_by_topic0: run the first pass, keep its
matched rows, project the unmatched rows back to the raw columns,
left-join them against the signature-frequency table, and vertically
stack the two parts. -/
def match_logs_by_topic0 (logs : List LogRow) (abi : List AbiRow) : List MatchedLogRow :=
  let logs_1 := match_logs_by_topic0_address logs abi
  let logs_address_matched := logs_1.filter (fun m => m.abi.isSome)
  let logs_address_not_matched := (logs_1.filter (fun m => m.abi.isNone)).map (fun m => m.log)
  logs_address_matched ++ joinLogsFreq logs_address_not_matched (log_signature_freq_table abi)

/-- A raw trace row as seen by the matcher. -/
structure TraceRow where
  selector : Option Bytes
  action_input : Option Bytes
  result_output : Option Bytes
  action_to : Option Bytes
deriving DecidableEq, Repr

/-- The catalog columns appended to a trace row by either matching pass
(hash and address are consumed as join keys in the first pass; the
second-pass table has no address column). -/
structure TraceAbiJoin where
  full_signature : String
  name : String
  anonymous : Option Bool
  num_indexed_args : Option Nat
  state_mutability : Option String
  id : String
deriving DecidableEq, Repr

/-- A row of the matched trace table. -/
structure MatchedTraceRow where
  trace : TraceRow
  abi : Option TraceAbiJoin
deriving DecidableEq, Repr

/-- The appended catalog columns of a first-pass trace match. -/
def traceAbiJoinOf (a : AbiRow) : TraceAbiJoin :=
  { full_signature := a.full_signature, name := a.name, anonymous := a.anonymous,
    num_indexed_args := a.num_indexed_args, state_mutability := a.state_mutability,
    id := a.id }

/-- Translation of match_traces_by_4bytes_address: left join on
(selector, action_to) against (hash, address). -/
def match_traces_by_4bytes_address (traces : List TraceRow) (abi : List AbiRow) :
    List MatchedTraceRow :=
  traces.flatMap (fun r =>
    let ms := abi.filter (fun a =>
      decide (r.selector = some a.hash) && decide (r.action_to = some a.address))
    if ms.isEmpty then [{ trace := r, abi := none }]
    else ms.map (fun a => { trace := r, abi := some (traceAbiJoinOf a) }))

/-- The first group_by key of the trace two-pass matcher. -/
def traceSigKey (a : AbiRow) : Bytes × String × String :=
  (a.hash, a.full_signature, a.name)

/-- The second group_by key of the trace two-pass matcher. -/
def traceHashKey (g : AbiRow × Nat) : Bytes :=
  g.1.hash

/-- The trace signature-frequency table: group the catalog by
(hash, full_signature, name) with counts, sort by count descending, keep
the first row per hash, drop address and signature_count. -/
def trace_signature_freq_table (abi : List AbiRow) : List TraceAbiJoin :=
  (dedupByKey traceHashKey (sortByCountDesc (groupByFirst traceSigKey abi))).map
    (fun g => traceAbiJoinOf g.1)

/-- The hash column retained by the trace frequency table rows, paired
for the second-pass join. -/
def trace_signature_freq_hashes (abi : List AbiRow) : List (Bytes × TraceAbiJoin) :=
  (dedupByKey traceHashKey (sortByCountDesc (groupByFirst traceSigKey abi))).map
    (fun g => (g.1.hash, traceAbiJoinOf g.1))

/-- The second-pass left join of the unmatched trace rows against the
frequency table on selector against hash only. -/
def joinTracesFreq (rows : List TraceRow) (freq : List (Bytes × TraceAbiJoin)) :
    List MatchedTraceRow :=
  rows.flatMap (fun r =>
    let ms := freq.filter (fun f => decide (r.selector = some f.1))
    if ms.isEmpty then [{ trace := r, abi := none }]
    else ms.map (fun f => { trace := r, abi := some f.2 }))

/-- Translation of match_traces_by_4bytes: the two-pass trace matcher.
The first pass is the hash+address join; unmatched rows are re-joined
against the signature-frequency table on selector against hash only and
the parts are vertically stacked. -/
def match_traces_by_4bytes (traces : List TraceRow) (abi : List AbiRow) :
    List MatchedTraceRow :=
  let traces_1 := match_traces_by_4bytes_address traces abi
  let traces_address_matched := traces_1.filter (fun m => m.abi.isSome)
  let traces_address_not_matched :=
    (traces_1.filter (fun m => m.abi.isNone)).map (fun m => m.trace)
  traces_address_matched ++
    joinTracesFreq traces_address_not_matched (trace_signature_freq_hashes abi)

/-- The trace decoding algorithm selector referenced by
trace_decoder.rs (configger::TraceAlgorithm); FourBytes corresponds to
the hash algorithm of the specification, FourBytesAddress to
hash_address. -/
inductive TraceAlgorithm where
  | fourBytesAddress
  | fourBytes
deriving DecidableEq, Repr

/-- Translation of the matcher dispatch in decode_trace_df_with_abi_df
(trace_decoder.rs lines 182 to 186): both arms call the single-pass
match_traces_by_4bytes_address; the FourBytes arm carries a TODO comment
in the source and never calls match_traces_by_4bytes. -/
def decode_trace_matching (alg : TraceAlgorithm) (traces : List TraceRow)
    (abi : List AbiRow) : List MatchedTraceRow :=
  match alg with
  | .fourBytesAddress => match_traces_by_4bytes_address traces abi
  | .fourBytes => match_traces_by_4bytes_address traces abi

/-- A catalog row whose hash matches the demo trace selector but whose
address differs from the trace target. -/
def c1AbiRow : AbiRow :=
  { address := [170], hash := [1, 2, 3, 4], full_signature := "f()", name := "f",
    anonymous := none, num_indexed_args := none, state_mutability := some "nonpayable",
    id := "0x01020304 - f()" }

/-- A trace row whose selector is in the catalog but whose action_to
address is not. -/
def c1TraceRow : TraceRow :=
  { selector := some [1, 2, 3, 4], action_input := some [], result_output := some [],
    action_to := some [187] }

/-- C1 (code bug). The decode dispatch for traces maps the hash
algorithm (FourBytes) to the single-pass hash+address matcher, not to
the two-pass hash-only matcher: on every input the FourBytes dispatch
equals match_traces_by_4bytes_address, and at a concrete input whose
selector is catalogued under a different address the dispatch leaves the
row unmatched while the two-pass matcher match_traces_by_4bytes (present
in matcher.rs but never called) matches it. -/
theorem trace_hash_dispatch_not_two_pass :
    (∀ (traces : List TraceRow) (abi : List AbiRow),
      decode_trace_matching TraceAlgorithm.fourBytes traces abi =
        match_traces_by_4bytes_address traces abi) ∧
    decode_trace_matching TraceAlgorithm.fourBytes [c1TraceRow] [c1AbiRow] =
      [{ trace := c1TraceRow, abi := none }] ∧
    match_traces_by_4bytes [c1TraceRow] [c1AbiRow] =
      [{ trace := c1TraceRow, abi := some (traceAbiJoinOf c1AbiRow) }] ∧
    decode_trace_matching TraceAlgorithm.fourBytes [c1TraceRow] [c1AbiRow] ≠
      match_traces_by_4bytes [c1TraceRow] [c1AbiRow] := by
  refine ⟨fun _ _ => rfl, by decide, by decide, by decide⟩

lemma sortByCountDesc_pairwise (l : List (AbiRow × Nat)) :
    List.Pairwise (fun x y => y.2 ≤ x.2) (sortByCountDesc l) := by
  haveI ht : IsTotal (AbiRow × Nat) (fun x y => y.2 ≤ x.2) :=
    ⟨fun a b => Nat.le_total b.2 a.2⟩
  haveI htr : IsTrans (AbiRow × Nat) (fun x y => y.2 ≤ x.2) :=
    ⟨fun _ _ _ h1 h2 => Nat.le_trans h2 h1⟩
  exact List.sorted_insertionSort _ l

lemma sortByCountDesc_perm (l : List (AbiRow × Nat)) : (sortByCountDesc l).Perm l :=
  List.perm_insertionSort _ l

lemma groupByFirstFuel_mem {κ : Type} [DecidableEq κ] (key : AbiRow → κ) :
    ∀ (fuel : Nat) (l : List AbiRow), l.length ≤ fuel →
    ∀ a c, (a, c) ∈ groupByFirstFuel key fuel l →
      a ∈ l ∧ c = (l.filter (fun b => decide (key b = key a))).length
  | 0, l, h, a, c, hm => by
      have : l = [] := List.length_eq_zero.mp (Nat.le_zero.mp h)
      subst this
      simp [groupByFirstFuel] at hm
  | fuel + 1, [], _, a, c, hm => by simp [groupByFirstFuel] at hm
  | fuel + 1, x :: rest, h, a, c, hm => by
      simp only [groupByFirstFuel, List.mem_cons] at hm
      rcases hm with heq | hm
      · have ha : a = x := congrArg Prod.fst heq
        have hc : c = 1 + (rest.filter (fun b => decide (key b = key x))).length :=
          congrArg Prod.snd heq
        subst ha
        refine ⟨by simp, ?_⟩
        rw [hc, List.filter_cons_of_pos (by simp)]
        simp only [List.length_cons]
        omega
      · have hfl : (rest.filter (fun b => ! decide (key b = key x))).length ≤ fuel := by
          have := List.length_filter_le (fun b => ! decide (key b = key x)) rest
          simp only [List.length_cons] at h
          omega
        obtain ⟨hmem, hc⟩ := groupByFirstFuel_mem key fuel _ hfl a c hm
        have hain : a ∈ rest := (List.mem_filter.mp hmem).1
        have hkey : ¬ (key a = key x) := by
          have := (List.mem_filter.mp hmem).2
          simpa using this
        refine ⟨by simp [hain], ?_⟩
        rw [hc, List.filter_cons_of_neg (by simpa using fun hkx => hkey hkx.symm),
          List.filter_filter]
        apply congrArg
        apply List.filter_congr
        intro b _
        by_cases hb : key b = key a
        · simp [hb, hkey]
        · simp [hb]

lemma dedupByKeyFuel_subset {κ : Type} [DecidableEq κ] (key : AbiRow × Nat → κ) :
    ∀ (fuel : Nat) (l : List (AbiRow × Nat)) (g : AbiRow × Nat),
      g ∈ dedupByKeyFuel key fuel l → g ∈ l
  | 0, l, g, hm => by simp [dedupByKeyFuel] at hm
  | fuel + 1, [], g, hm => by simp [dedupByKeyFuel] at hm
  | fuel + 1, x :: rest, g, hm => by
      simp only [dedupByKeyFuel, List.mem_cons] at hm
      rcases hm with rfl | hm
      · simp
      · have := dedupByKeyFuel_subset key fuel _ g hm
        exact List.mem_cons_of_mem x (List.mem_filter.mp this).1

lemma dedupByKeyFuel_keys_nodup {κ : Type} [DecidableEq κ] (key : AbiRow × Nat → κ) :
    ∀ (fuel : Nat) (l : List (AbiRow × Nat)),
      ((dedupByKeyFuel key fuel l).map key).Nodup
  | 0, l => by simp [dedupByKeyFuel]
  | fuel + 1, [] => by simp [dedupByKeyFuel]
  | fuel + 1, x :: rest => by
      simp only [dedupByKeyFuel, List.map_cons, List.nodup_cons]
      refine ⟨?_, dedupByKeyFuel_keys_nodup key fuel _⟩
      intro hmem
      obtain ⟨g, hg, hkg⟩ := List.mem_map.mp hmem
      have := dedupByKeyFuel_subset key fuel _ g hg
      have := (List.mem_filter.mp this).2
      simp only [Bool.not_eq_eq_eq_not, Bool.not_true, decide_eq_false_iff_not] at this
      exact this hkg

lemma dedupByKeyFuel_max {κ : Type} [DecidableEq κ] (key : AbiRow × Nat → κ) :
    ∀ (fuel : Nat) (l : List (AbiRow × Nat)), l.length ≤ fuel →
      List.Pairwise (fun x y => y.2 ≤ x.2) l →
      ∀ g ∈ l, ∃ f ∈ dedupByKeyFuel key fuel l, key f = key g ∧ g.2 ≤ f.2
  | 0, l, h, _, g, hg => by
      have : l = [] := List.length_eq_zero.mp (Nat.le_zero.mp h)
      subst this
      simp at hg
  | fuel + 1, [], _, _, g, hg => by simp at hg
  | fuel + 1, x :: rest, h, hpw, g, hg => by
      have hpw2 := List.pairwise_cons.mp hpw
      rcases List.mem_cons.mp hg with rfl | hgr
      · exact ⟨g, by simp [dedupByKeyFuel], rfl, le_rfl⟩
      · by_cases hk : key g = key x
        · exact ⟨x, by simp [dedupByKeyFuel], hk.symm, hpw2.1 g hgr⟩
        · have hgf : g ∈ rest.filter (fun h2 => ! decide (key h2 = key x)) :=
            List.mem_filter.mpr ⟨hgr, by simpa using hk⟩
          have hfl : (rest.filter (fun h2 => ! decide (key h2 = key x))).length ≤ fuel := by
            have := List.length_filter_le (fun h2 => ! decide (key h2 = key x)) rest
            simp only [List.length_cons] at h
            omega
          obtain ⟨f, hf, hkf, hle⟩ := dedupByKeyFuel_max key fuel _ hfl
            (hpw2.2.filter _) g hgf
          exact ⟨f, by simp [dedupByKeyFuel, List.mem_cons]; right; exact hf, hkf, hle⟩

lemma length_filter_le_one_of_nodup_keys {β κ : Type} [DecidableEq κ] (key : β → κ)
    (p : β → Bool) (k : κ) (hp : ∀ x, p x = true → key x = k) :
    ∀ l : List β, (l.map key).Nodup → (l.filter p).length ≤ 1 := by
  intro l
  induction l with
  | nil => intro _; simp
  | cons b t ih =>
      intro hnd
      simp only [List.map_cons, List.nodup_cons] at hnd
      cases hpb : p b with
      | false => rw [List.filter_cons_of_neg (by simp [hpb])]; exact ih hnd.2
      | true =>
          rw [List.filter_cons_of_pos (by simp [hpb])]
          have : t.filter p = [] := by
            rw [List.filter_eq_nil_iff]
            intro x hx hpx
            exact hnd.1 (List.mem_map.mpr ⟨x, hx, (hp x hpx).trans (hp b hpb).symm⟩)
          simp [this]

lemma mem_match_logs_pass1 {m : MatchedLogRow} {logs : List LogRow} {abi : List AbiRow}
    (h : m ∈ match_logs_by_topic0_address logs abi) :
    m.num_indexed_args = numIndexedArgs m.log := by
  obtain ⟨r, _, hm⟩ := List.mem_flatMap.mp h
  dsimp only at hm
  split at hm
  · simp only [List.mem_singleton] at hm
    subst hm; rfl
  · obtain ⟨a, _, hma⟩ := List.mem_map.mp hm
    subst hma; rfl

lemma mem_joinLogsFreq {m : MatchedLogRow} {rows : List LogRow} {freq : List LogFreqRow}
    (h : m ∈ joinLogsFreq rows freq) :
    m.num_indexed_args = numIndexedArgs m.log := by
  obtain ⟨r, _, hm⟩ := List.mem_flatMap.mp h
  dsimp only at hm
  split at hm
  · simp only [List.mem_singleton] at hm
    subst hm; rfl
  · obtain ⟨f, _, hmf⟩ := List.mem_map.mp hm
    subst hmf; rfl

lemma joinLogsFreq_length (rows : List LogRow) (freq : List LogFreqRow)
    (hnd : (freq.map (fun f => (f.hash, f.num_indexed_args))).Nodup) :
    (joinLogsFreq rows freq).length = rows.length := by
  induction rows with
  | nil => rfl
  | cons r rs ih =>
      have hone : (joinLogsFreq [r] freq).length = 1 := by
        unfold joinLogsFreq
        simp only [List.flatMap_cons, List.flatMap_nil, List.append_nil]
        cases hfe : freq.filter (fun f =>
            decide (r.topic0 = some f.hash) &&
              decide (f.num_indexed_args = some (numIndexedArgs r))) with
        | nil => simp [hfe]
        | cons a t =>
            have hle : (freq.filter (fun f =>
                decide (r.topic0 = some f.hash) &&
                  decide (f.num_indexed_args = some (numIndexedArgs r)))).length ≤ 1 := by
              cases ht0 : r.topic0 with
              | none =>
                  have hnil : freq.filter (fun f =>
                      decide (r.topic0 = some f.hash) &&
                        decide (f.num_indexed_args = some (numIndexedArgs r))) = [] := by
                    rw [List.filter_eq_nil_iff]
                    intro f _
                    simp [ht0]
                  simp [hnil]
              | some t0 =>
                  apply length_filter_le_one_of_nodup_keys
                    (fun f => (f.hash, f.num_indexed_args)) _
                    (t0, some (numIndexedArgs r)) ?_ freq hnd
                  intro f hf
                  simp only [Bool.and_eq_true, decide_eq_true_eq, ht0,
                    Option.some.injEq] at hf
                  simp only [hf.2, ← hf.1]
            rw [hfe] at hle
            simp only [List.length_cons] at hle
            simp only [hfe, List.isEmpty_cons, Bool.false_eq_true, if_false,
              List.length_map, List.length_cons]
            omega
      have hsplit : joinLogsFreq (r :: rs) freq =
          joinLogsFreq [r] freq ++ joinLogsFreq rs freq := by
        unfold joinLogsFreq
        simp [List.flatMap_cons]
      rw [hsplit, List.length_append, hone, ih, List.length_cons]
      omega

lemma matched_unmatched_length (l : List MatchedLogRow) :
    (l.filter (fun m => m.abi.isSome)).length +
      (l.filter (fun m => m.abi.isNone)).length = l.length := by
  induction l with
  | nil => rfl
  | cons m t ih =>
      cases hm : m.abi with
      | none =>
          rw [List.filter_cons_of_neg (by simp [hm]), List.filter_cons_of_pos (by simp [hm])]
          simp only [List.length_cons]
          omega
      | some j =>
          rw [List.filter_cons_of_pos (by simp [hm]), List.filter_cons_of_neg (by simp [hm])]
          simp only [List.length_cons]
          omega

/-- C4 (the two-pass log matcher). The output is the vertical stack of
the rows matched by the first hash+address+num_indexed_args pass and of
the left join of the remaining rows (projected back to the raw columns)
against the signature-frequency table on (topic0, num_indexed_args);
every output row carries num_indexed_args = 1 + (topic1 non-null) +
(topic2 non-null) + (topic3 non-null); the frequency table holds at most
one row per (hash, num_indexed_args), each being a catalog group of
maximal count among the groups sharing its (hash, num_indexed_args), so
the stack has exactly one row per first-pass row. -/
theorem match_logs_two_pass_spec (logs : List LogRow) (abi : List AbiRow) :
    (match_logs_by_topic0 logs abi =
      (match_logs_by_topic0_address logs abi).filter (fun m => m.abi.isSome) ++
        joinLogsFreq
          (((match_logs_by_topic0_address logs abi).filter (fun m => m.abi.isNone)).map
            (fun m => m.log))
          (log_signature_freq_table abi)) ∧
    (∀ m ∈ match_logs_by_topic0 logs abi,
      m.num_indexed_args =
        1 + (if m.log.topic1.isSome then 1 else 0) +
          (if m.log.topic2.isSome then 1 else 0) +
          (if m.log.topic3.isSome then 1 else 0)) ∧
    (match_logs_by_topic0 logs abi).length =
      (match_logs_by_topic0_address logs abi).length ∧
    ((log_signature_freq_table abi).map (fun f => (f.hash, f.num_indexed_args))).Nodup ∧
    (∀ f ∈ log_signature_freq_table abi, ∃ a cnt,
      (a, cnt) ∈ groupByFirst logSigKey abi ∧
      cnt = (abi.filter (fun b => decide (logSigKey b = logSigKey a))).length ∧
      f.hash = a.hash ∧ f.full_signature = a.full_signature ∧ f.name = a.name ∧
      f.anonymous = a.anonymous ∧ f.num_indexed_args = a.num_indexed_args ∧
      f.state_mutability = a.state_mutability ∧ f.id = a.id ∧
      ∀ b cb, (b, cb) ∈ groupByFirst logSigKey abi → b.hash = f.hash →
        b.num_indexed_args = f.num_indexed_args → cb ≤ cnt) := by
  have hnd : ((log_signature_freq_table abi).map
      (fun f => (f.hash, f.num_indexed_args))).Nodup := by
    unfold log_signature_freq_table
    rw [List.map_map]
    exact dedupByKeyFuel_keys_nodup logHashNumKey _ _
  refine ⟨rfl, ?_, ?_, hnd, ?_⟩
  · intro m hm
    unfold match_logs_by_topic0 at hm
    rcases List.mem_append.mp hm with h | h
    · exact mem_match_logs_pass1 (List.mem_filter.mp h).1
    · exact mem_joinLogsFreq h
  · unfold match_logs_by_topic0
    rw [List.length_append, joinLogsFreq_length _ _ hnd, List.length_map]
    exact matched_unmatched_length _
  · intro f hf
    unfold log_signature_freq_table at hf
    obtain ⟨g, hg, hfg⟩ := List.mem_map.mp hf
    have hgs : g ∈ sortByCountDesc (groupByFirst logSigKey abi) :=
      dedupByKeyFuel_subset logHashNumKey _ _ g hg
    have hgg : g ∈ groupByFirst logSigKey abi := (sortByCountDesc_perm _).mem_iff.mp hgs
    obtain ⟨_, hcnt⟩ := groupByFirstFuel_mem logSigKey _ _ le_rfl g.1 g.2 hgg
    refine ⟨g.1, g.2, hgg, hcnt, ?_, ?_, ?_, ?_, ?_, ?_, ?_, ?_⟩
    · rw [← hfg]
    · rw [← hfg]
    · rw [← hfg]
    · rw [← hfg]
    · rw [← hfg]
    · rw [← hfg]
    · rw [← hfg]
    · intro b cb hb hhash hnum
      have hbs : (b, cb) ∈ sortByCountDesc (groupByFirst logSigKey abi) :=
        (sortByCountDesc_perm _).mem_iff.mpr hb
      obtain ⟨f0, hf0, hk0, hle⟩ := dedupByKeyFuel_max logHashNumKey _ _ le_rfl
        (sortByCountDesc_pairwise _) (b, cb) hbs
      have hkey : logHashNumKey f0 = logHashNumKey g := by
        rw [hk0]
        unfold logHashNumKey
        rw [← hfg] at hhash hnum
        simp only at hhash hnum
        rw [hhash, hnum]
      have hfg0 : f0 = g :=
        List.inj_on_of_nodup_map (dedupByKeyFuel_keys_nodup logHashNumKey _ _) hf0 hg hkey
      rw [hfg0] at hle
      exact hle

/-- A concrete catalog row for the two-pass log matcher witness. -/
def w4AbiRow : AbiRow :=
  { address := [17], hash := [9], full_signature := "T(address a)", name := "T",
    anonymous := some false, num_indexed_args := some 2, state_mutability := none,
    id := "0x09 - T(address a)" }

/-- A concrete raw log row matching w4AbiRow in the first pass. -/
def w4LogRow : LogRow :=
  { topic0 := some [9], topic1 := some [1], topic2 := none, topic3 := none,
    data := some [], address := some [17] }

/-- The matched row produced for w4LogRow. -/
def w4MatchedRow : MatchedLogRow :=
  { log := w4LogRow, num_indexed_args := 2, abi := some (logAbiJoinOf w4AbiRow) }

/-- The signature-frequency row of the one-row catalog. -/
def w4FreqRow : LogFreqRow :=
  { hash := [9], full_signature := "T(address a)", name := "T", anonymous := some false,
    num_indexed_args := some 2, state_mutability := none, id := "0x09 - T(address a)" }

/-- Witness for match_logs_two_pass_spec at a one-row table and
one-row catalog. -/
theorem match_logs_two_pass_spec_witness :
    (w4MatchedRow.num_indexed_args =
      1 + (if w4MatchedRow.log.topic1.isSome then 1 else 0) +
        (if w4MatchedRow.log.topic2.isSome then 1 else 0) +
        (if w4MatchedRow.log.topic3.isSome then 1 else 0)) ∧
    (∃ a cnt,
      (a, cnt) ∈ groupByFirst logSigKey [w4AbiRow] ∧
      cnt = ([w4AbiRow].filter (fun b => decide (logSigKey b = logSigKey a))).length ∧
      w4FreqRow.hash = a.hash ∧ w4FreqRow.full_signature = a.full_signature ∧
      w4FreqRow.name = a.name ∧ w4FreqRow.anonymous = a.anonymous ∧
      w4FreqRow.num_indexed_args = a.num_indexed_args ∧
      w4FreqRow.state_mutability = a.state_mutability ∧ w4FreqRow.id = a.id ∧
      ∀ b cb, (b, cb) ∈ groupByFirst logSigKey [w4AbiRow] → b.hash = w4FreqRow.hash →
        b.num_indexed_args = w4FreqRow.num_indexed_args → cb ≤ cnt) := by
  constructor
  · exact (match_logs_two_pass_spec [w4LogRow] [w4AbiRow]).2.1 w4MatchedRow (by decide)
  · exact (match_logs_two_pass_spec [w4LogRow] [w4AbiRow]).2.2.2.2 w4FreqRow (by decide)

/-! ## ABI catalog builder (abi_reader.rs) -/

/-- Anti join of the scanned rows against the existing catalog on id:
the scanned rows whose id is absent from the existing table. -/
def anti_join_by_id (new_rows existing : List AbiRow) : List AbiRow :=
  new_rows.filter (fun r => ! (existing.any (fun e => decide (e.id = r.id))))

/-- Deduplication on id keeping the first occurrence, with explicit
iteration fuel (polars unique with UniqueKeepStrategy First). -/
def uniqueByIdFuel : Nat → List AbiRow → List AbiRow
  | 0, _ => []
  | _, [] => []
  | fuel + 1, a :: rest =>
      a :: uniqueByIdFuel fuel (rest.filter (fun b => ! decide (b.id = a.id)))

/-- Deduplication on id keeping the first occurrence. -/
def unique_by_id (l : List AbiRow) : List AbiRow :=
  uniqueByIdFuel l.length l

/-- Translation of concat_dataframes: vertical concatenation followed by
unique on id keeping the first occurrence. -/
def concat_dataframes (dfs : List (List AbiRow)) : List AbiRow :=
  unique_by_id dfs.flatten

/-- Translation of update_abi_db on row lists: existing is the catalog
read from disk (empty when the file is missing or empty), new_rows is
the folder scan result. The diff is the anti join of the scan against
the existing rows on id; when the existing table is non-empty the result
is concat_dataframes of existing and diff; when it is empty the result
is the raw scan result, with no deduplication. -/
def update_abi_db (existing new_rows : List AbiRow) : List AbiRow :=
  let diff_df := anti_join_by_id new_rows existing
  if existing.length > 0 then concat_dataframes [existing, diff_df] else new_rows

/-- A scanned event row under unique_key = [hash, full_signature]. -/
def c2Row1 : AbiRow :=
  { address := [170], hash := [9], full_signature := "E()", name := "E",
    anonymous := some false, num_indexed_args := some 1, state_mutability := none,
    id := "0x09 - E()" }

/-- The same event scanned from a second contract: identical id. -/
def c2Row2 : AbiRow :=
  { address := [187], hash := [9], full_signature := "E()", name := "E",
    anonymous := some false, num_indexed_args := some 1, state_mutability := none,
    id := "0x09 - E()" }

/-- C2 (code bug). When the existing catalog is empty or missing,
update_abi_db returns the scan result without any deduplication on id:
two ABI files exposing the same event under a unique_key that omits the
address produce two rows with the same id, and the returned (and
persisted) table keeps both. The non-empty branch of the same function
does deduplicate, as shown by the third conjunct. -/
theorem update_abi_db_empty_catalog_duplicate_ids :
    update_abi_db [] [c2Row1, c2Row2] = [c2Row1, c2Row2] ∧
    ¬ ((update_abi_db [] [c2Row1, c2Row2]).map (fun r => r.id)).Nodup ∧
    ((update_abi_db [c2Row1] [c2Row1, c2Row2]).map (fun r => r.id)).Nodup := by
  refine ⟨by decide, by decide, by decide⟩

/-- The column names of a dataframe built by create_dataframe_from_rows
(abi_reader.rs lines 370 to 388). -/
def abiColNames : List String :=
  ["address", "hash", "full_signature", "name", "anonymous", "num_indexed_args",
    "state_mutability", "id"]

/-- The column names of the empty frame returned when a folder scan
finds no eligible file (abi_reader.rs lines 177 to 187). -/
def emptyScanColNames : List String :=
  ["address", "hash", "full_signature", "name", "anonymous", "state_mutability", "id"]

/-- A dataframe abstracted to its schema and height, which is all the
schema claim needs. -/
structure AbiFrame where
  names : List String
  height : Nat
deriving DecidableEq, Repr

/-- Translation of create_dataframe_from_rows at the schema level: one
column per AbiItemRow field, including num_indexed_args (the optional
output hex re-encoding changes dtypes, not names). -/
def create_dataframe_from_rows (rows : List AbiRow) : AbiFrame :=
  { names := abiColNames, height := rows.length }

/-- Vertical stack of two frames; polars errors when the schemas
differ. -/
def vstackFrames (f1 f2 : AbiFrame) : Option AbiFrame :=
  if f1.names = f2.names then some { names := f1.names, height := f1.height + f2.height }
  else none

/-- Translation of read_new_abi_folder on a directory: each entry either
fails to read (none, silently skipped) or yields rows; when no file
succeeds the result is the empty seven-column frame, otherwise the
per-file frames are vstacked in order. -/
def read_new_abi_folder (files : List (Option (List AbiRow))) : Option AbiFrame :=
  let processed_frames := files.filterMap (fun o => o.map create_dataframe_from_rows)
  match processed_frames with
  | [] => some { names := emptyScanColNames, height := 0 }
  | f :: rest => rest.foldlM vstackFrames f

lemma foldVstack_names : ∀ (rest : List AbiFrame) (acc frame : AbiFrame),
    rest.foldlM vstackFrames acc = some frame → frame.names = acc.names
  | [], acc, frame, h => by
      simp only [List.foldlM_nil, Option.pure_def, Option.some.injEq] at h
      rw [← h]
  | x :: rest, acc, frame, h => by
      simp only [List.foldlM_cons, Option.bind_eq_bind] at h
      cases hv : vstackFrames acc x with
      | none => rw [hv] at h; cases h
      | some y =>
          rw [hv] at h
          simp only [Option.some_bind] at h
          have hy : y.names = acc.names := by
            unfold vstackFrames at hv
            split at hv
            next => cases hv; rfl
            next => cases hv
          rw [foldVstack_names rest y frame h, hy]

/-- C10. A directory scan in which every entry is skipped or fails
returns the empty frame with the seven-column schema that omits
num_indexed_args; any scan with at least one successful file returns a
frame with the eight-column schema containing num_indexed_args; the two
schemas differ. -/
theorem empty_scan_schema_differs :
    (∀ files : List (Option (List AbiRow)), (∀ f ∈ files, f = none) →
      read_new_abi_folder files = some { names := emptyScanColNames, height := 0 } ∧
      "num_indexed_args" ∉ emptyScanColNames) ∧
    (∀ (files : List (Option (List AbiRow))) (rows : List AbiRow) (frame : AbiFrame),
      some rows ∈ files → read_new_abi_folder files = some frame →
      frame.names = abiColNames ∧ "num_indexed_args" ∈ frame.names) ∧
    emptyScanColNames ≠ abiColNames := by
  refine ⟨?_, ?_, by decide⟩
  · intro files hall
    have hnil : files.filterMap (fun o => o.map create_dataframe_from_rows) = [] := by
      rw [List.filterMap_eq_nil_iff]
      intro o ho
      rw [hall o ho]
      rfl
    unfold read_new_abi_folder
    rw [hnil]
    exact ⟨rfl, by decide⟩
  · intro files rows frame hmem hread
    have hne : files.filterMap (fun o => o.map create_dataframe_from_rows) ≠ [] := by
      intro hnil
      rw [List.filterMap_eq_nil_iff] at hnil
      have := hnil (some rows) hmem
      simp at this
    have hnames : ∀ fr ∈ files.filterMap (fun o => o.map create_dataframe_from_rows),
        fr.names = abiColNames := by
      intro fr hfr
      obtain ⟨o, _, ho⟩ := List.mem_filterMap.mp hfr
      cases o with
      | none => cases ho
      | some rs =>
          rw [show (some rs).map create_dataframe_from_rows =
            some (create_dataframe_from_rows rs) from rfl] at ho
          cases ho
          rfl
    unfold read_new_abi_folder at hread
    constructor
    · cases hpf : files.filterMap (fun o => o.map create_dataframe_from_rows) with
      | nil => exact absurd hpf hne
      | cons f rest =>
          rw [hpf] at hread
          simp only at hread
          have hf : f.names = abiColNames := hnames f (by rw [hpf]; simp)
          rw [foldVstack_names rest f frame hread, hf]
    · cases hpf : files.filterMap (fun o => o.map create_dataframe_from_rows) with
      | nil => exact absurd hpf hne
      | cons f rest =>
          rw [hpf] at hread
          simp only at hread
          have hf : f.names = abiColNames := hnames f (by rw [hpf]; simp)
          rw [foldVstack_names rest f frame hread, hf]
          decide

/-- Witness for empty_scan_schema_differs: a one-entry skipped scan and
a one-entry successful scan. -/
theorem empty_scan_schema_differs_witness :
    (read_new_abi_folder [none] = some { names := emptyScanColNames, height := 0 } ∧
      "num_indexed_args" ∉ emptyScanColNames) ∧
    ({ names := abiColNames, height := 1 : AbiFrame }.names = abiColNames ∧
      "num_indexed_args" ∈ ({ names := abiColNames, height := 1 : AbiFrame }).names) := by
  constructor
  · exact empty_scan_schema_differs.1 [none] (by intro f hf; simpa using hf)
  · exact empty_scan_schema_differs.2.1 [some [c2Row1]] [c2Row1]
      { names := abiColNames, height := 1 } (by decide) (by decide)

/-! ## Configger (configger.rs)

The process-wide RwLock cell is modelled by explicit state passing: a
setter maps the current Config to the new Config plus an optional error,
mutating exactly where the Rust code assigns. File reading and TOML
parsing are I/O; set_config_toml takes the parsed document. -/

/-- configger::PreferedDataframeType. -/
inductive PreferedDataframeType where
  | polars
  | pandas
deriving DecidableEq, Repr

/-- configger::AbiReadMode. -/
inductive AbiReadMode where
  | events
  | functions
  | both
deriving DecidableEq, Repr

/-- configger::DecoderAlgorithm. -/
inductive DecoderAlgorithm where
  | hashAddress
  | hash
deriving DecidableEq, Repr

/-- configger::GlaciersConfig. -/
structure GlaciersConfig where
  preferred_dataframe_type : PreferedDataframeType
  unnesting_hex_string_encoding : Bool
deriving DecidableEq, Repr

/-- configger::MainConfig. -/
structure MainConfig where
  events_abi_db_file_path : String
  functions_abi_db_file_path : String
  abi_folder_path : String
  raw_logs_folder_path : String
  raw_traces_folder_path : String
deriving DecidableEq, Repr

/-- configger::AbiReaderConfig. -/
structure AbiReaderConfig where
  abi_read_mode : AbiReadMode
  unique_key : List String
  output_hex_string_encoding : Bool
deriving DecidableEq, Repr

/-- configger::DecoderConfig. -/
structure DecoderConfig where
  algorithm : DecoderAlgorithm
  output_hex_string_encoding : Bool
  output_file_format : String
  max_concurrent_files_decoding : Nat
  max_chunk_threads_per_file : Nat
  decoded_chunk_size : Nat
deriving DecidableEq, Repr

/-- configger::LogAliasConfig. -/
structure LogAliasConfig where
  topic0 : String
  topic1 : String
  topic2 : String
  topic3 : String
  data : String
  address : String
deriving DecidableEq, Repr

/-- configger::LogDatatypeConfig. -/
structure LogDatatypeConfig where
  topic0 : GlDataType
  topic1 : GlDataType
  topic2 : GlDataType
  topic3 : GlDataType
  data : GlDataType
  address : GlDataType
deriving DecidableEq, Repr

/-- configger::LogSchemaConfig. -/
structure LogSchemaConfig where
  log_alias : LogAliasConfig
  log_datatype : LogDatatypeConfig
deriving DecidableEq, Repr

/-- configger::LogDecoderConfig. -/
structure LogDecoderConfig where
  log_schema : LogSchemaConfig
deriving DecidableEq, Repr

/-- configger::TraceAliasConfig. -/
structure TraceAliasConfig where
  selector : String
  action_input : String
  result_output : String
  action_to : String
deriving DecidableEq, Repr

/-- configger::TraceDatatypeConfig. -/
structure TraceDatatypeConfig where
  selector : GlDataType
  action_input : GlDataType
  result_output : GlDataType
  action_to : GlDataType
deriving DecidableEq, Repr

/-- configger::TraceSchemaConfig. -/
structure TraceSchemaConfig where
  trace_alias : TraceAliasConfig
  trace_datatype : TraceDatatypeConfig
deriving DecidableEq, Repr

/-- configger::TraceDecoderConfig. -/
structure TraceDecoderConfig where
  trace_schema : TraceSchemaConfig
deriving DecidableEq, Repr

/-- configger::Config. -/
structure Config where
  glaciers : GlaciersConfig
  main : MainConfig
  abi_reader : AbiReaderConfig
  decoder : DecoderConfig
  log_decoder : LogDecoderConfig
  trace_decoder : TraceDecoderConfig
deriving DecidableEq, Repr

/-- The built-in default configuration (the initial GLACIERS_CONFIG). -/
def defaultConfig : Config :=
  { glaciers :=
      { preferred_dataframe_type := .polars, unnesting_hex_string_encoding := false },
    main :=
      { events_abi_db_file_path := "ABIs/ethereum__events__abis.parquet",
        functions_abi_db_file_path := "ABIs/ethereum__functions__abis.parquet",
        abi_folder_path := "ABIs/abi_database",
        raw_logs_folder_path := "data/logs",
        raw_traces_folder_path := "data/traces" },
    abi_reader :=
      { abi_read_mode := .events, output_hex_string_encoding := false,
        unique_key := ["hash", "full_signature", "address"] },
    decoder :=
      { algorithm := .hash, output_hex_string_encoding := false,
        output_file_format := "parquet", max_concurrent_files_decoding := 16,
        max_chunk_threads_per_file := 16, decoded_chunk_size := 500000 },
    log_decoder :=
      { log_schema :=
          { log_alias :=
              { topic0 := "topic0", topic1 := "topic1", topic2 := "topic2",
                topic3 := "topic3", data := "data", address := "address" },
            log_datatype :=
              { topic0 := .binary, topic1 := .binary, topic2 := .binary,
                topic3 := .binary, data := .binary, address := .binary } } },
    trace_decoder :=
      { trace_schema :=
          { trace_alias :=
              { selector := "selector", action_input := "action_input",
                result_output := "result_output", action_to := "action_to" },
            trace_datatype :=
              { selector := .binary, action_input := .binary,
                result_output := .binary, action_to := .binary } } } }

/-- configger::ConfigValue. -/
inductive ConfigValue where
  | str (s : String)
  | num (n : Nat)
  | list (l : List String)
  | boolean (b : Bool)
deriving DecidableEq, Repr

/-- configger::ConfiggerError (the carried messages are abbreviated to
the offending path or field). -/
inductive ConfiggerError where
  | ioError
  | parseError
  | invalidTomlFormat
  | unsupportedValueType (path : String)
  | invalidFieldOrValue (path : String)
deriving DecidableEq, Repr

/-- Splitting a character list at every dot (the Rust split with the
dot pattern). -/
def splitDotsChars : List Char → List (List Char)
  | [] => [[]]
  | c :: rest =>
      let r := splitDotsChars rest
      if c = '.' then [] :: r
      else
        match r with
        | [] => [[c]]
        | h :: t => (c :: h) :: t

/-- Splitting a string at every dot. -/
def splitDots (s : String) : List String :=
  (splitDotsChars s.data).map String.mk

/-- ASCII lowercasing (the Rust to_lowercase on the ASCII values the
configger compares against). -/
def asciiLower (s : String) : String :=
  String.mk (s.data.map Char.toLower)

/-- Translation of validate_unique_key: every element must be hash,
full_signature or address; the first offending element is reported. -/
def validate_unique_key (unique_key : List String) : Option ConfiggerError :=
  match unique_key.find? (fun k =>
      ! (decide (k = "hash") || decide (k = "full_signature") || decide (k = "address"))) with
  | some k => some (.invalidFieldOrValue k)
  | none => none

/-- Translation of validate_output_file_format: csv or parquet only. -/
def validate_output_file_format (fmt : String) : Option ConfiggerError :=
  if fmt = "csv" ∨ fmt = "parquet" then none else some (.invalidFieldOrValue fmt)

/-- Parsing of a datatype value string: binary or hexstring, case
insensitive (the repeated inline match of the Rust source). -/
def parseDatatypeValue (v : String) : Option GlDataType :=
  match asciiLower v with
  | "binary" => some .binary
  | "hexstring" => some .hexString
  | _ => none

/-- Translation of set_config: split the dotted path into section,
field, subfield and schema field, then set exactly one leaf, or return
an error leaving the configuration unchanged. Each arm mirrors one arm
of the Rust match; the state component carries the mutation the Rust
code performs under the write lock. -/
def set_config (config : Config) (config_path : String) (value : ConfigValue) :
    Config × Option ConfiggerError :=
  let parts := splitDots config_path
  let field := parts.get? 1
  let subfield := parts.get? 2
  let schema_field := parts.get? 3
  let fieldName := field.getD ""
  match parts.get? 0 with
  | none => (config, some (.invalidFieldOrValue config_path))
  | some sectionName =>
    match sectionName, field, value with
    | "glaciers", some "preferred_dataframe_type", .str v =>
        match asciiLower v with
        | "polars" => ({ config with glaciers.preferred_dataframe_type := .polars }, none)
        | "pandas" => ({ config with glaciers.preferred_dataframe_type := .pandas }, none)
        | _ => (config, some (.invalidFieldOrValue fieldName))
    | "glaciers", some "unnesting_hex_string_encoding", .boolean v =>
        ({ config with glaciers.unnesting_hex_string_encoding := v }, none)
    | "glaciers", some "unnesting_hex_string_encoding", .num v =>
        match v with
        | 1 => ({ config with glaciers.unnesting_hex_string_encoding := true }, none)
        | 0 => ({ config with glaciers.unnesting_hex_string_encoding := false }, none)
        | _ => (config, some (.invalidFieldOrValue fieldName))
    | "glaciers", _, _ => (config, some (.invalidFieldOrValue fieldName))
    | "main", some "events_abi_db_file_path", .str v =>
        ({ config with main.events_abi_db_file_path := v }, none)
    | "main", some "functions_abi_db_file_path", .str v =>
        ({ config with main.functions_abi_db_file_path := v }, none)
    | "main", some "abi_folder_path", .str v =>
        ({ config with main.abi_folder_path := v }, none)
    | "main", some "raw_logs_folder_path", .str v =>
        ({ config with main.raw_logs_folder_path := v }, none)
    | "main", some "raw_traces_folder_path", .str v =>
        ({ config with main.raw_traces_folder_path := v }, none)
    | "main", _, _ => (config, some (.invalidFieldOrValue fieldName))
    | "abi_reader", some "abi_read_mode", .str v =>
        match asciiLower v with
        | "events" => ({ config with abi_reader.abi_read_mode := .events }, none)
        | "functions" => ({ config with abi_reader.abi_read_mode := .functions }, none)
        | "both" => ({ config with abi_reader.abi_read_mode := .both }, none)
        | _ => (config, some (.invalidFieldOrValue fieldName))
    | "abi_reader", some "output_hex_string_encoding", .boolean v =>
        ({ config with abi_reader.output_hex_string_encoding := v }, none)
    | "abi_reader", some "output_hex_string_encoding", .num v =>
        match v with
        | 1 => ({ config with abi_reader.output_hex_string_encoding := true }, none)
        | 0 => ({ config with abi_reader.output_hex_string_encoding := false }, none)
        | _ => (config, some (.invalidFieldOrValue fieldName))
    | "abi_reader", some "unique_key", .list v =>
        let v := v.map (fun s => asciiLower s)
        (match validate_unique_key v with
         | some e => (config, some e)
         | none => ({ config with abi_reader.unique_key := v }, none))
    | "abi_reader", some "unique_key", .str v =>
        let v := [asciiLower v]
        (match validate_unique_key v with
         | some e => (config, some e)
         | none => ({ config with abi_reader.unique_key := v }, none))
    | "abi_reader", _, _ => (config, some (.invalidFieldOrValue fieldName))
    | "decoder", some "algorithm", .str v =>
        match asciiLower v with
        | "hash_address" => ({ config with decoder.algorithm := .hashAddress }, none)
        | "hash" => ({ config with decoder.algorithm := .hash }, none)
        | _ => (config, some (.invalidFieldOrValue fieldName))
    | "decoder", some "output_hex_string_encoding", .boolean v =>
        ({ config with decoder.output_hex_string_encoding := v }, none)
    | "decoder", some "output_hex_string_encoding", .num v =>
        match v with
        | 1 => ({ config with decoder.output_hex_string_encoding := true }, none)
        | 0 => ({ config with decoder.output_hex_string_encoding := false }, none)
        | _ => (config, some (.invalidFieldOrValue fieldName))
    | "decoder", some "output_file_format", .str v =>
        let v := asciiLower v
        (match validate_output_file_format v with
         | some e => (config, some e)
         | none => ({ config with decoder.output_file_format := v }, none))
    | "decoder", some "max_concurrent_files_decoding", .num v =>
        ({ config with decoder.max_concurrent_files_decoding := v }, none)
    | "decoder", some "max_chunk_threads_per_file", .num v =>
        ({ config with decoder.max_chunk_threads_per_file := v }, none)
    | "decoder", some "decoded_chunk_size", .num v =>
        ({ config with decoder.decoded_chunk_size := v }, none)
    | "decoder", _, _ => (config, some (.invalidFieldOrValue fieldName))
    | "log_decoder", some "log_schema", value =>
        (match subfield, value with
         | some "log_alias", .str v =>
             match schema_field with
             | some "topic0" =>
                 ({ config with log_decoder.log_schema.log_alias.topic0 := v }, none)
             | some "topic1" =>
                 ({ config with log_decoder.log_schema.log_alias.topic1 := v }, none)
             | some "topic2" =>
                 ({ config with log_decoder.log_schema.log_alias.topic2 := v }, none)
             | some "topic3" =>
                 ({ config with log_decoder.log_schema.log_alias.topic3 := v }, none)
             | some "data" =>
                 ({ config with log_decoder.log_schema.log_alias.data := v }, none)
             | some "address" =>
                 ({ config with log_decoder.log_schema.log_alias.address := v }, none)
             | _ => (config, some (.invalidFieldOrValue (schema_field.getD "")))
         | some "log_datatype", .str v =>
             (match parseDatatypeValue v with
              | none => (config, some (.invalidFieldOrValue "Invalid datatype"))
              | some dt =>
                  match schema_field with
                  | some "topic0" =>
                      ({ config with log_decoder.log_schema.log_datatype.topic0 := dt }, none)
                  | some "topic1" =>
                      ({ config with log_decoder.log_schema.log_datatype.topic1 := dt }, none)
                  | some "topic2" =>
                      ({ config with log_decoder.log_schema.log_datatype.topic2 := dt }, none)
                  | some "topic3" =>
                      ({ config with log_decoder.log_schema.log_datatype.topic3 := dt }, none)
                  | some "data" =>
                      ({ config with log_decoder.log_schema.log_datatype.data := dt }, none)
                  | some "address" =>
                      ({ config with log_decoder.log_schema.log_datatype.address := dt }, none)
                  | _ => (config, some (.invalidFieldOrValue (schema_field.getD ""))))
         | _, _ => (config, some (.invalidFieldOrValue (subfield.getD ""))))
    | "log_decoder", _, _ => (config, some (.invalidFieldOrValue fieldName))
    | "trace_decoder", some "trace_schema", value =>
        (match subfield, value with
         | some "trace_alias", .str v =>
             match schema_field with
             | some "selector" =>
                 ({ config with trace_decoder.trace_schema.trace_alias.selector := v }, none)
             | some "action_input" =>
                 ({ config with trace_decoder.trace_schema.trace_alias.action_input := v },
                   none)
             | some "result_output" =>
                 ({ config with trace_decoder.trace_schema.trace_alias.result_output := v },
                   none)
             | some "action_to" =>
                 ({ config with trace_decoder.trace_schema.trace_alias.action_to := v }, none)
             | _ => (config, some (.invalidFieldOrValue (schema_field.getD "")))
         | some "trace_datatype", .str v =>
             (match parseDatatypeValue v with
              | none => (config, some (.invalidFieldOrValue "Invalid datatype"))
              | some dt =>
                  match schema_field with
                  | some "selector" =>
                      ({ config with
                          trace_decoder.trace_schema.trace_datatype.selector := dt }, none)
                  | some "action_input" =>
                      ({ config with
                          trace_decoder.trace_schema.trace_datatype.action_input := dt },
                        none)
                  | some "result_output" =>
                      ({ config with
                          trace_decoder.trace_schema.trace_datatype.result_output := dt },
                        none)
                  | some "action_to" =>
                      ({ config with
                          trace_decoder.trace_schema.trace_datatype.action_to := dt }, none)
                  | _ => (config, some (.invalidFieldOrValue (schema_field.getD ""))))
         | _, _ => (config, some (.invalidFieldOrValue (subfield.getD ""))))
    | "trace_decoder", _, _ => (config, some (.invalidFieldOrValue fieldName))
    | _, _, _ => (config, some (.invalidFieldOrValue sectionName))

/-- A parsed TOML value. An array is kept as its elements viewed through
as_str (none marks a non-string element); float stands for any leaf kind
other than string, integer, boolean and array (the Rust catch-all). -/
inductive TomlValue where
  | str (s : String)
  | int (n : Int)
  | boolean (b : Bool)
  | arr (xs : List (Option String))
  | table (entries : List (String × TomlValue))
  | float
deriving Repr

/-- All elements of an array viewed as strings, failing on the first
non-string element (the collected Result of the Rust source). -/
def arrayAsStrings : List (Option String) → Option (List String)
  | [] => some []
  | some s :: rest => (arrayAsStrings rest).map (fun l => s :: l)
  | none :: _ => none

/-- Translation of process_table: flatten nested tables depth-first into
dotted keys, convert each supported leaf to a ConfigValue (an integer is
cast to an unsigned machine word), and fail with UnsupportedValueType on
the first unsupported leaf. -/
def process_table (pre : String) : List (String × TomlValue) →
    Except ConfiggerError (List (String × ConfigValue))
  | [] => .ok []
  | (key, value) :: rest =>
      let full_key := if pre = "" then key else pre ++ "." ++ key
      match value with
      | .table nested => do
          let inner ← process_table full_key nested
          let restPairs ← process_table pre rest
          .ok (inner ++ restPairs)
      | .str s => do
          let restPairs ← process_table pre rest
          .ok ((full_key, ConfigValue.str s) :: restPairs)
      | .int n => do
          let restPairs ← process_table pre rest
          .ok ((full_key, ConfigValue.num (n % (2 ^ 64)).toNat) :: restPairs)
      | .arr xs =>
          match arrayAsStrings xs with
          | none => .error (.unsupportedValueType full_key)
          | some l => do
              let restPairs ← process_table pre rest
              .ok ((full_key, ConfigValue.list l) :: restPairs)
      | .boolean b => do
          let restPairs ← process_table pre rest
          .ok ((full_key, ConfigValue.boolean b) :: restPairs)
      | .float => .error (.unsupportedValueType full_key)

/-- The application loop of set_config_toml: apply each pair through
set_config in order, stopping at the first error with the state the
failing set_config left behind. -/
def applyPairs (cfg : Config) : List (String × ConfigValue) →
    Config × Option ConfiggerError
  | [] => (cfg, none)
  | p :: ps =>
      match set_config cfg p.1 p.2 with
      | (c1, none) => applyPairs c1 ps
      | (c1, some e) => (c1, some e)

/-- Translation of set_config_toml on an already parsed document: check
the root is a table, flatten it, and apply each pair via set_config. -/
def set_config_toml (cfg : Config) (doc : TomlValue) :
    Config × Option ConfiggerError :=
  match doc with
  | .table t =>
      match process_table "" t with
      | .ok pairs => applyPairs cfg pairs
      | .error e => (cfg, some e)
  | _ => (cfg, some .invalidTomlFormat)

/-- Sequential application of every pair, keeping only the state. -/
def applyAll (cfg : Config) (pairs : List (String × ConfigValue)) : Config :=
  pairs.foldl (fun c p => (set_config c p.1 p.2).1) cfg

set_option maxHeartbeats 1000000 in
/-- Every error arm of set_config fires before the single assignment, so
a failing call leaves the configuration unchanged. -/
lemma set_config_state_or_ok (cfg : Config) (path : String) (v : ConfigValue) :
    (set_config cfg path v).1 = cfg ∨ (set_config cfg path v).2 = none := by
  unfold set_config
  dsimp only
  repeat' split
  all_goals first
    | exact Or.inl rfl
    | exact Or.inr rfl

lemma set_config_err_unchanged {cfg : Config} {path : String} {v : ConfigValue}
    {e : ConfiggerError} (h : (set_config cfg path v).2 = some e) :
    (set_config cfg path v).1 = cfg := by
  rcases set_config_state_or_ok cfg path v with h1 | h1
  · exact h1
  · rw [h1] at h; cases h

lemma applyPairs_spec : ∀ (pairs : List (String × ConfigValue)) (cfg : Config),
    ((applyPairs cfg pairs).2 = none → (applyPairs cfg pairs).1 = applyAll cfg pairs) ∧
    (∀ e, (applyPairs cfg pairs).2 = some e → ∃ k p, pairs[k]? = some p ∧
      (applyPairs cfg pairs).1 = applyAll cfg (pairs.take k) ∧
      (set_config (applyAll cfg (pairs.take k)) p.1 p.2).2 = some e ∧
      ∀ j q, j < k → pairs[j]? = some q →
        (set_config (applyAll cfg (pairs.take j)) q.1 q.2).2 = none)
  | [], cfg => by
      refine ⟨fun _ => rfl, fun e he => ?_⟩
      simp only [applyPairs] at he
      cases he
  | p :: ps, cfg => by
      rcases hsc : set_config cfg p.1 p.2 with ⟨c1, oe⟩
      have hstep : (set_config cfg p.1 p.2).1 = c1 := by rw [hsc]
      have happ : applyAll cfg (p :: ps) = applyAll c1 ps := by
        unfold applyAll
        rw [List.foldl_cons, hstep]
      cases oe with
      | none =>
          have hred : applyPairs cfg (p :: ps) = applyPairs c1 ps := by
            show (match set_config cfg p.1 p.2 with
              | (c2, none) => applyPairs c2 ps
              | (c2, some e) => (c2, some e)) = applyPairs c1 ps
            rw [hsc]
          obtain ⟨ihn, ihs⟩ := applyPairs_spec ps c1
          constructor
          · intro hnone
            rw [hred] at hnone ⊢
            rw [happ]
            exact ihn hnone
          · intro e he
            rw [hred] at he
            obtain ⟨k, p1, hk, hst, hfail, hprev⟩ := ihs e he
            refine ⟨k + 1, p1, by simpa using hk, ?_, ?_, ?_⟩
            · rw [hred, List.take_succ_cons]
              have : applyAll cfg (p :: ps.take k) = applyAll c1 (ps.take k) := by
                unfold applyAll
                rw [List.foldl_cons, hstep]
              rw [this]
              exact hst
            · rw [List.take_succ_cons]
              have : applyAll cfg (p :: ps.take k) = applyAll c1 (ps.take k) := by
                unfold applyAll
                rw [List.foldl_cons, hstep]
              rw [this]
              exact hfail
            · intro j q hj hjq
              cases j with
              | zero =>
                  have hq : p = q := by simpa using hjq
                  subst hq
                  rw [List.take_zero]
                  show (set_config (applyAll cfg []) p.1 p.2).2 = none
                  rw [show applyAll cfg [] = cfg from rfl, hsc]
              | succ j1 =>
                  have hjq1 : ps[j1]? = some q := by simpa using hjq
                  rw [List.take_succ_cons]
                  have : applyAll cfg (p :: ps.take j1) = applyAll c1 (ps.take j1) := by
                    unfold applyAll
                    rw [List.foldl_cons, hstep]
                  rw [this]
                  exact hprev j1 q (by omega) hjq1
      | some e0 =>
          have hred : applyPairs cfg (p :: ps) = (c1, some e0) := by
            show (match set_config cfg p.1 p.2 with
              | (c2, none) => applyPairs c2 ps
              | (c2, some e) => (c2, some e)) = (c1, some e0)
            rw [hsc]
          have hc1 : c1 = cfg := by
            have := set_config_err_unchanged (e := e0) (by rw [hsc])
            rw [hstep] at this
            exact this
          constructor
          · intro hnone
            rw [hred] at hnone
            cases hnone
          · intro e he
            rw [hred] at he
            have he0 : e0 = e := by
              simpa using he
            refine ⟨0, p, by simp, ?_, ?_, ?_⟩
            · rw [hred, List.take_zero]
              show c1 = applyAll cfg []
              rw [hc1]
              rfl
            · rw [List.take_zero]
              show (set_config (applyAll cfg []) p.1 p.2).2 = some e
              rw [show applyAll cfg [] = cfg from rfl, hsc, he0]
            · intro j q hj _
              omega

/-- The document of the non-atomicity example: a valid leaf followed by
an invalid field in the same table. -/
def c9Doc : TomlValue :=
  .table [("decoder", .table [("decoded_chunk_size", .int 7), ("bogus", .str "x")])]

/-- C9. set_config_toml flattens the document depth-first and applies
the leaves one at a time through set_config; when the run returns an
error, the state reached is exactly the application of the leaves before
the failing one, each of which succeeded, and the failing leaf returns
that error from the state so reached; a single failing set_config leaves
the configuration unchanged; and the run is not atomic: on a document
whose first leaf is valid and whose second is an invalid field, the
error is returned while the first leaf remains in effect. -/
theorem set_config_toml_sequential_not_atomic :
    (∀ (cfg : Config) (t : List (String × TomlValue)) (pairs : List (String × ConfigValue)),
      process_table "" t = .ok pairs →
      set_config_toml cfg (.table t) = applyPairs cfg pairs) ∧
    (∀ (pairs : List (String × ConfigValue)) (cfg : Config),
      ((applyPairs cfg pairs).2 = none → (applyPairs cfg pairs).1 = applyAll cfg pairs) ∧
      (∀ e, (applyPairs cfg pairs).2 = some e → ∃ k p, pairs[k]? = some p ∧
        (applyPairs cfg pairs).1 = applyAll cfg (pairs.take k) ∧
        (set_config (applyAll cfg (pairs.take k)) p.1 p.2).2 = some e ∧
        ∀ j q, j < k → pairs[j]? = some q →
          (set_config (applyAll cfg (pairs.take j)) q.1 q.2).2 = none)) ∧
    (∀ (cfg : Config) (path : String) (v : ConfigValue) (e : ConfiggerError),
      (set_config cfg path v).2 = some e → (set_config cfg path v).1 = cfg) ∧
    (set_config_toml defaultConfig c9Doc).2 =
      some (ConfiggerError.invalidFieldOrValue "bogus") ∧
    (set_config_toml defaultConfig c9Doc).1.decoder.decoded_chunk_size = 7 ∧
    (set_config_toml defaultConfig c9Doc).1 ≠ defaultConfig := by
  have hgen : ∀ (cfg : Config) (t : List (String × TomlValue))
      (pairs : List (String × ConfigValue)), process_table "" t = .ok pairs →
      set_config_toml cfg (.table t) = applyPairs cfg pairs := by
    intro cfg t pairs h
    unfold set_config_toml
    dsimp only
    rw [h]
  have hpt : process_table "" [("decoder", TomlValue.table
      [("decoded_chunk_size", TomlValue.int 7), ("bogus", TomlValue.str "x")])] =
      Except.ok [("decoder.decoded_chunk_size", ConfigValue.num (((7 : Int) % 2 ^ 64).toNat)),
        ("decoder.bogus", ConfigValue.str "x")] := by
    simp only [process_table]
    rfl
  have hc9 : c9Doc = TomlValue.table [("decoder", TomlValue.table
      [("decoded_chunk_size", TomlValue.int 7), ("bogus", TomlValue.str "x")])] := rfl
  have hst : set_config_toml defaultConfig c9Doc =
      applyPairs defaultConfig
        [("decoder.decoded_chunk_size", ConfigValue.num (((7 : Int) % 2 ^ 64).toNat)),
          ("decoder.bogus", ConfigValue.str "x")] := by
    rw [hc9]
    exact hgen defaultConfig _ _ hpt
  have herr : (set_config_toml defaultConfig c9Doc).2 =
      some (ConfiggerError.invalidFieldOrValue "bogus") := by
    rw [hst]
    decide
  have h7 : (set_config_toml defaultConfig c9Doc).1.decoder.decoded_chunk_size = 7 := by
    rw [hst]
    decide
  refine ⟨hgen, applyPairs_spec, ?_, herr, h7, ?_⟩
  · intro cfg path v e h
    exact set_config_err_unchanged h
  · intro heq
    rw [heq] at h7
    exact absurd h7 (by decide)

/-- Witness for set_config_toml_sequential_not_atomic at concrete
documents and pair lists. -/
theorem set_config_toml_sequential_not_atomic_witness :
    (set_config_toml defaultConfig
        (.table [("main", .table [("abi_folder_path", .str "x")])]) =
      applyPairs defaultConfig [("main.abi_folder_path", ConfigValue.str "x")]) ∧
    ((applyPairs defaultConfig [("main.abi_folder_path", ConfigValue.str "x")]).1 =
      applyAll defaultConfig [("main.abi_folder_path", ConfigValue.str "x")]) ∧
    (∃ k p, ([("decoder.bogus", ConfigValue.str "x")])[k]? = some p ∧
      (applyPairs defaultConfig [("decoder.bogus", ConfigValue.str "x")]).1 =
        applyAll defaultConfig (([("decoder.bogus", ConfigValue.str "x")]).take k) ∧
      (set_config (applyAll defaultConfig (([("decoder.bogus", ConfigValue.str "x")]).take k))
          p.1 p.2).2 = some (ConfiggerError.invalidFieldOrValue "bogus") ∧
      ∀ j q, j < k → ([("decoder.bogus", ConfigValue.str "x")])[j]? = some q →
        (set_config (applyAll defaultConfig
          (([("decoder.bogus", ConfigValue.str "x")]).take j)) q.1 q.2).2 = none) ∧
    (set_config defaultConfig "decoder.bogus" (ConfigValue.str "x")).1 = defaultConfig := by
  refine ⟨?_, ?_, ?_, ?_⟩
  · exact set_config_toml_sequential_not_atomic.1 defaultConfig _ _
      (by simp only [process_table]; rfl)
  · exact (set_config_toml_sequential_not_atomic.2.1 _ _).1 (by decide)
  · exact (set_config_toml_sequential_not_atomic.2.1 _ _).2
      (ConfiggerError.invalidFieldOrValue "bogus") (by decide)
  · exact set_config_toml_sequential_not_atomic.2.2.1 defaultConfig "decoder.bogus"
      (ConfigValue.str "x") (ConfiggerError.invalidFieldOrValue "bogus") (by decide)

end Glaciers
